import Mathlib

/-!
Watch firmware: gesture classifier, step detector and app navigation.

A shallow embedding of the event-classification and dispatch layer of the
ESP32-S3 watch firmware (`touch.cpp`, `sensors.cpp`, `apps.cpp`, `ui.cpp`), of
the battery, clock and timer functions of `power.cpp`, `rtc.cpp` and
`stopwatch_app.cpp`, and of every function of the program that assigns to
`system_state`.

Conventions of the embedding:
* C `int` values are `Int`; the coordinates handled here stay far inside the
  32-bit range, so no wrap-around is modelled for them except where noted.
* `unsigned long` values (the `millis()` clock) are `Nat` reduced modulo
  `2 ^ 32`; subtraction of two clock readings is the modular one (`subU32`).
* Module-level and function-level `static` variables become fields of an
  explicit state record that every operation takes and returns.
* A hardware read (I2C bytes, interrupt line, clock) is an explicit input
  record of the operation that performs it.
-/

namespace Watch

/-! ## config.h -/

def DISPLAY_WIDTH : Int := 368
def DISPLAY_HEIGHT : Int := 448

/-- Width of `unsigned long` on the target: clock readings live in `[0, 2^32)`. -/
def U32 : Nat := 2 ^ 32

/-- Subtraction of two `unsigned long` values, as C computes it (modulo `2^32`). -/
def subU32 (a b : Nat) : Nat := (a % U32 + U32 - b % U32) % U32

/-- Wrap an integer into the range of a 32-bit two's-complement `int`. -/
def wrapI32 (x : Int) : Int := (x + 2 ^ 31) % 2 ^ 32 - 2 ^ 31

/-! ## Arduino helpers used by touch.cpp -/

/-- Arduino `abs` macro: `((x)>0?(x):-(x))`. -/
def abs (x : Int) : Int := if x > 0 then x else -x

/-- Arduino `map`: `(x - in_min) * (out_max - out_min) / (in_max - in_min) + out_min`
with C's truncating division.  For `in_max = in_min` the C expression divides
by zero; the calls embedded here have the input ranges `100..3900` (touch.cpp)
and `20..348` (`handleSettingsTouch`). -/
def map (x in_min in_max out_min out_max : Int) : Int :=
  Int.tdiv ((x - in_min) * (out_max - out_min)) (in_max - in_min) + out_min

/-- Arduino `constrain` macro: `((amt)<(low)?(low):((amt)>(high)?(high):(amt)))`. -/
def constrain (amt low high : Int) : Int :=
  if amt < low then low else if amt > high then high else amt

/-! ## touch.h -/

inductive TouchEvent where
  | TOUCH_NONE
  | TOUCH_PRESS
  | TOUCH_RELEASE
  | TOUCH_MOVE
  | TOUCH_SWIPE_UP
  | TOUCH_SWIPE_DOWN
  | TOUCH_SWIPE_LEFT
  | TOUCH_SWIPE_RIGHT
  | TOUCH_TAP
  | TOUCH_DOUBLE_TAP
  | TOUCH_LONG_PRESS
  deriving DecidableEq

open TouchEvent

structure TouchGesture where
  event : TouchEvent
  x : Int
  y : Int
  start_x : Int
  start_y : Int
  end_x : Int
  end_y : Int
  timestamp : Nat
  duration : Nat
  is_valid : Bool
  deriving DecidableEq

/-! ## touch.cpp -/

structure TouchCalibration where
  min_x : Int
  max_x : Int
  min_y : Int
  max_y : Int
  calibrated : Bool
  deriving DecidableEq

/-- The file-level variables of touch.cpp. -/
structure TouchState where
  touch_cal : TouchCalibration
  last_touch_x : Int
  last_touch_y : Int
  touch_start_time : Nat
  touch_pressed : Bool
  digital_crown_value : Int
  deriving DecidableEq

/-- Calibration written by `loadTouchCalibration` (and by `calibrateTouch`). -/
def loadTouchCalibration : TouchCalibration :=
  { min_x := 100, max_x := 3900, min_y := 100, max_y := 3900, calibrated := true }

/-- State of touch.cpp after `initializeTouch`: the static initialisers plus
the loaded calibration. -/
def initTouchState : TouchState :=
  { touch_cal := loadTouchCalibration
    last_touch_x := -1
    last_touch_y := -1
    touch_start_time := 0
    touch_pressed := false
    digital_crown_value := 0 }

/-- Everything one call of `handleTouchInput` reads from the hardware:
the interrupt line, the number of bytes the controller delivered, the six
register bytes, and the two `millis()` readings (on entry, and at the point
where the press/release/move is time-stamped). -/
structure TouchRead where
  int_high : Bool
  available : Nat
  status : Nat
  x_high : Nat
  x_low : Nat
  y_high : Nat
  y_low : Nat
  pressure : Nat
  millis_entry : Nat
  millis_now : Nat
  deriving DecidableEq

/-- Truncation to `uint8_t`. -/
def u8 (b : Nat) : Nat := b % 256

/-- The value `touch_count = status & 0x0F`. -/
def touch_count (r : TouchRead) : Nat := u8 r.status &&& 0x0F

/-- The value `raw_x = ((x_high & 0x0F) << 8) | x_low`. -/
def raw_x (r : TouchRead) : Int := (((u8 r.x_high &&& 0x0F) <<< 8) ||| u8 r.x_low : Nat)

/-- The value `raw_y = ((y_high & 0x0F) << 8) | y_low`. -/
def raw_y (r : TouchRead) : Int := (((u8 r.y_high &&& 0x0F) <<< 8) ||| u8 r.y_low : Nat)

/-- Calibrated and constrained x coordinate of a contact read. -/
def touch_x (c : TouchCalibration) (r : TouchRead) : Int :=
  constrain (map (raw_x r) c.min_x c.max_x 0 DISPLAY_WIDTH) 0 (DISPLAY_WIDTH - 1)

/-- Calibrated and constrained y coordinate of a contact read. -/
def touch_y (c : TouchCalibration) (r : TouchRead) : Int :=
  constrain (map (raw_y r) c.min_y c.max_y 0 DISPLAY_HEIGHT) 0 (DISPLAY_HEIGHT - 1)

/-- The gesture a call starts from:
`{TOUCH_NONE, 0, 0, 0, 0, 0, 0, millis(), 0, false}`. -/
def emptyGesture (r : TouchRead) : TouchGesture :=
  { event := TOUCH_NONE, x := 0, y := 0, start_x := 0, start_y := 0, end_x := 0, end_y := 0
    timestamp := r.millis_entry % U32, duration := 0, is_valid := false }

/-- One call of `handleTouchInput`: the returned gesture and the new state. -/
def handleTouchInput (s : TouchState) (r : TouchRead) : TouchGesture × TouchState :=
  let gesture := emptyGesture r
  if r.int_high then (gesture, s)
  else if r.available < 6 then (gesture, s)
  else if touch_count r = 0 then
    if s.touch_pressed then
      let touch_duration := subU32 r.millis_now s.touch_start_time
      ({ gesture with
          event := if touch_duration > 800 then TOUCH_LONG_PRESS
                   else if touch_duration < 200 then TOUCH_TAP
                   else TOUCH_RELEASE
          x := s.last_touch_x, y := s.last_touch_y
          start_x := s.last_touch_x, start_y := s.last_touch_y
          end_x := s.last_touch_x, end_y := s.last_touch_y
          duration := touch_duration
          is_valid := true },
       { s with touch_pressed := false })
    else (gesture, s)
  else
    let tx := touch_x s.touch_cal r
    let ty := touch_y s.touch_cal r
    if !s.touch_pressed then
      ({ gesture with
          event := TOUCH_PRESS, x := tx, y := ty, start_x := tx, start_y := ty
          is_valid := true },
       { s with
          touch_pressed := true, touch_start_time := r.millis_now % U32
          last_touch_x := tx, last_touch_y := ty })
    else
      let dx := tx - s.last_touch_x
      let dy := ty - s.last_touch_y
      if abs dx > 5 ∨ abs dy > 5 then
        let touch_duration := subU32 r.millis_now s.touch_start_time
        ({ gesture with
            event :=
              if touch_duration > 100 ∧ touch_duration < 500 then
                if abs dx > abs dy ∧ abs dx > 50 then
                  (if dx > 0 then TOUCH_SWIPE_RIGHT else TOUCH_SWIPE_LEFT)
                else if abs dy > abs dx ∧ abs dy > 50 then
                  (if dy > 0 then TOUCH_SWIPE_DOWN else TOUCH_SWIPE_UP)
                else TOUCH_MOVE
              else TOUCH_MOVE
            x := tx, y := ty
            start_x := s.last_touch_x, start_y := s.last_touch_y
            end_x := tx, end_y := ty
            is_valid := true },
         { s with
            digital_crown_value := wrapI32 (s.digital_crown_value + dy)
            last_touch_x := tx, last_touch_y := ty })
      else (gesture, s)

/-- Feed a sequence of reads to `handleTouchInput`, collecting the gestures. -/
def runTouch : TouchState → List TouchRead → List TouchGesture × TouchState
  | s, [] => ([], s)
  | s, r :: rs =>
    let (g, s1) := handleTouchInput s r
    let (gs, s2) := runTouch s1 rs
    (g :: gs, s2)

/-- The events of the gestures produced by a sequence of reads. -/
def touchEvents (s : TouchState) (rs : List TouchRead) : List TouchEvent :=
  (runTouch s rs).1.map TouchGesture.event

/-- A read that delivers a full sample (interrupt line low, six bytes). -/
def hasSample (r : TouchRead) : Prop := r.int_high = false ∧ 6 ≤ r.available

/-- A release read: a full sample whose `touch_count` is 0. -/
def isReleaseRead (r : TouchRead) : Prop := hasSample r ∧ touch_count r = 0

/-- A contact read: a full sample whose `touch_count` is not 0. -/
def isContactRead (r : TouchRead) : Prop := hasSample r ∧ touch_count r ≠ 0

instance (r : TouchRead) : Decidable (hasSample r) := by unfold hasSample; infer_instance
instance (r : TouchRead) : Decidable (isReleaseRead r) := by unfold isReleaseRead; infer_instance
instance (r : TouchRead) : Decidable (isContactRead r) := by unfold isContactRead; infer_instance

/-- A contact read with the given raw 12-bit coordinates at clock value `t`. -/
def contactAt (rx ry t : Nat) : TouchRead :=
  { int_high := false, available := 6, status := 1
    x_high := rx / 256, x_low := rx % 256, y_high := ry / 256, y_low := ry % 256
    pressure := 0, millis_entry := t, millis_now := t }

/-- A release read at clock value `t`. -/
def releaseAt (t : Nat) : TouchRead :=
  { int_high := false, available := 6, status := 0
    x_high := 0, x_low := 0, y_high := 0, y_low := 0
    pressure := 0, millis_entry := t, millis_now := t }

/-! ## sensors.cpp: step detector

The accelerometer magnitude `sqrt(x² + y² + z²)` is a finite non-negative
`float`; the detector only compares it with constants, so the embedding takes
the magnitude itself as the input of a call, as an exact rational number, and
the constants `0.8` and `0.7` as the rationals `8/10` and `7/10` (the rounding
of the floating-point product `step_threshold * 0.8` is not modelled). -/

/-- Value of `MIN_STEP_THRESHOLD` (config.h), the initial `step_threshold`. -/
def MIN_STEP_THRESHOLD : ℚ := 12 / 10

/-- Value of `STEP_TIME_WINDOW` (config.h). -/
def STEP_TIME_WINDOW : Nat := 500

/-- The function-level `static` variables of `detectStep`. -/
structure StepState where
  last_magnitude : ℚ
  last_step : Nat
  step_in_progress : Bool
  deriving DecidableEq

/-- The static initialisers of `detectStep`. -/
def initStepState : StepState :=
  { last_magnitude := 0, last_step := 0, step_in_progress := false }

/-- One call of `detectStep` with the global `step_threshold`, on a sample of
the given magnitude, with `millis()` returning `current_time`. -/
def detectStep (step_threshold : ℚ) (s : StepState) (magnitude : ℚ) (current_time : Nat) :
    Bool × StepState :=
  let fallThrough : Bool × StepState :=
    (false, { step_in_progress :=
                if magnitude < step_threshold * (7 / 10) then false else s.step_in_progress
              last_step := s.last_step
              last_magnitude := magnitude })
  if magnitude > step_threshold ∧ s.step_in_progress = false ∧
      subU32 current_time s.last_step > STEP_TIME_WINDOW then
    if s.last_magnitude < step_threshold * (8 / 10) then
      (true, { step_in_progress := true, last_step := current_time % U32
               last_magnitude := magnitude })
    else fallThrough
  else fallThrough

/-- A sample handed to `detectStep`: its magnitude and the clock reading. -/
structure StepSample where
  magnitude : ℚ
  time : Nat
  deriving DecidableEq

/-- Feed a sequence of samples to `detectStep`, collecting the return values. -/
def runSteps (thr : ℚ) : StepState → List StepSample → List Bool × StepState
  | s, [] => ([], s)
  | s, x :: xs =>
    let (b, s1) := detectStep thr s x.magnitude x.time
    let (bs, s2) := runSteps thr s1 xs
    (b :: bs, s2)

/-- The return values of `detectStep` over a sequence of samples. -/
def stepResults (thr : ℚ) (s : StepState) (xs : List StepSample) : List Bool :=
  (runSteps thr s xs).1

/-- The detector state after a sequence of samples. -/
def stepStateAfter (thr : ℚ) (s : StepState) (xs : List StepSample) : StepState :=
  (runSteps thr s xs).2

/-- The reference magnitudes `[0.9, 0.9, 1.3, 1.3, 0.9, 1.3]` at 50 ms spacing,
the first sample taken at clock value `t0`. -/
def referenceSamples (t0 : Nat) : List StepSample :=
  [⟨9 / 10, t0⟩, ⟨9 / 10, t0 + 50⟩, ⟨13 / 10, t0 + 100⟩,
   ⟨13 / 10, t0 + 150⟩, ⟨9 / 10, t0 + 200⟩, ⟨13 / 10, t0 + 250⟩]

/-! ## config.h, apps.h, apps.cpp, ui.cpp: registry and navigation -/

inductive ScreenType where
  | SCREEN_SPLASH
  | SCREEN_WATCHFACE
  | SCREEN_APP_GRID
  | SCREEN_MUSIC
  | SCREEN_NOTES
  | SCREEN_QUESTS
  | SCREEN_SETTINGS
  | SCREEN_PDF_READER
  | SCREEN_FILE_BROWSER
  | SCREEN_SLEEP
  | SCREEN_CHARGING
  deriving DecidableEq

inductive AppType where
  | APP_WATCHFACE
  | APP_QUESTS
  | APP_MUSIC
  | APP_NOTES
  | APP_FILES
  | APP_SETTINGS
  | APP_PDF_READER
  | APP_WEATHER
  | APP_GAMES
  deriving DecidableEq

open ScreenType AppType

/-- The functions that the registry table and the screen switch of ui.cpp
refer to by name; a call of one of them is recorded, not executed (none of
them reads or writes the navigation variables). -/
inductive Func where
  | drawWatchFace
  | initializeQuests
  | drawQuestScreen
  | initMusicApp
  | drawMusicApp
  | handleMusicTouch
  | initializeGames
  | drawGameMenu
  | handleGameMenuTouch
  | initNotesApp
  | drawNotesApp
  | handleNotesTouch
  | initFileBrowserApp
  | drawFileBrowserApp
  | handleFileBrowserTouch
  | initPDFReaderApp
  | drawPDFReaderApp
  | handlePDFReaderTouch
  | initSettingsApp
  | drawSettingsApp
  | handleSettingsTouch
  | initWeatherApp
  | drawWeatherApp
  | handleWeatherTouch
  | drawAppGrid
  | drawSleepWatchFace
  | showChargingAnimation
  deriving DecidableEq

/-- The struct `WatchApp` of apps.h; a function pointer is `some f`, `nullptr`
is `none`. -/
structure WatchApp where
  type : AppType
  name : String
  icon_file : String
  icon_color : Nat
  installed : Bool
  init_func : Option Func
  draw_func : Option Func
  touch_func : Option Func
  cleanup_func : Option Func
  deriving DecidableEq

/-- The table `registered_apps` of apps.cpp, in registration order. -/
def registered_apps : List WatchApp :=
  [ ⟨APP_WATCHFACE, "Watch", "", 0xFFFF, true, none, some .drawWatchFace, none, none⟩,
    ⟨APP_QUESTS, "Quests", "", 0xFFE0, true,
      some .initializeQuests, some .drawQuestScreen, none, none⟩,
    ⟨APP_MUSIC, "Music", "", 0x001F, true,
      some .initMusicApp, some .drawMusicApp, some .handleMusicTouch, none⟩,
    ⟨APP_GAMES, "Games", "", 0x07E0, true,
      some .initializeGames, some .drawGameMenu, some .handleGameMenuTouch, none⟩,
    ⟨APP_NOTES, "Notes", "", 0xFFE0, true,
      some .initNotesApp, some .drawNotesApp, some .handleNotesTouch, none⟩,
    ⟨APP_FILES, "Files", "", 0xFD20, true,
      some .initFileBrowserApp, some .drawFileBrowserApp, some .handleFileBrowserTouch, none⟩,
    ⟨APP_PDF_READER, "PDF", "", 0xF800, true,
      some .initPDFReaderApp, some .drawPDFReaderApp, some .handlePDFReaderTouch, none⟩,
    ⟨APP_SETTINGS, "Settings", "", 0x8010, true,
      some .initSettingsApp, some .drawSettingsApp, some .handleSettingsTouch, none⟩,
    ⟨APP_WEATHER, "Weather", "", 0x07FF, true,
      some .initWeatherApp, some .drawWeatherApp, some .handleWeatherTouch, none⟩ ]

/-- The value `sizeof(registered_apps) / sizeof(registered_apps[0])`. -/
def num_registered_apps : Nat := registered_apps.length

/-- The navigation variables: `system_state.current_screen` and
`system_state.current_app` (config.h), `current_app_index` (apps.cpp),
`current_ui_screen` (ui.cpp), and the record of the capability functions
invoked so far, oldest first. -/
structure NavState where
  current_screen : ScreenType
  current_app : AppType
  current_app_index : Nat
  current_ui_screen : ScreenType
  calls : List Func
  deriving DecidableEq

/-- Invoke a function pointer if it is not `nullptr`. -/
def invoke (f : Option Func) (s : NavState) : NavState :=
  match f with
  | some g => { s with calls := s.calls ++ [g] }
  | none => s

/-- The scan of `launchApp`: `for (i = 0; i < num_registered_apps; i++)` over
the entries from index `i` on; at the first entry whose type is `app` it sets
`current_app_index`, invokes `init_func` if present, and stops. -/
def launchScan (app : AppType) : List WatchApp → Nat → NavState → NavState
  | [], _, s => s
  | a :: rest, i, s =>
    if a.type = app then invoke a.init_func { s with current_app_index := i }
    else launchScan app rest (i + 1) s

/-- The function `launchApp(app)` over the registry table `apps`.  It returns
`void`. -/
def launchApp (apps : List WatchApp) (s : NavState) (app : AppType) : NavState :=
  launchScan app apps 0 { s with current_app := app, current_screen := SCREEN_APP_GRID }

/-- The function `exitCurrentApp()` over the registry table `apps`; the index
`current_app_index` is inside the table in every state the program reaches. -/
def exitCurrentApp (apps : List WatchApp) (s : NavState) : NavState :=
  let s1 := match apps[s.current_app_index]? with
    | some a => invoke a.cleanup_func s
    | none => s
  { s1 with current_screen := SCREEN_WATCHFACE, current_app := APP_WATCHFACE }

/-- The function `switchToApp(app)`. -/
def switchToApp (apps : List WatchApp) (s : NavState) (app : AppType) : NavState :=
  launchApp apps s app

/-- The draw function that `drawCurrentScreen` (ui.cpp) calls for a screen. -/
def drawCurrentScreen : ScreenType → Func
  | SCREEN_WATCHFACE => .drawWatchFace
  | SCREEN_APP_GRID => .drawAppGrid
  | SCREEN_MUSIC => .drawMusicApp
  | SCREEN_QUESTS => .drawQuestScreen
  | SCREEN_SETTINGS => .drawSettingsApp
  | SCREEN_PDF_READER => .drawPDFReaderApp
  | SCREEN_FILE_BROWSER => .drawFileBrowserApp
  | SCREEN_SLEEP => .drawSleepWatchFace
  | SCREEN_CHARGING => .showChargingAnimation
  | _ => .drawWatchFace

/-- Membership of an app id in a registry table. -/
def isRegistered (apps : List WatchApp) (app : AppType) : Prop :=
  ∃ a ∈ apps, a.type = app

instance (apps : List WatchApp) (app : AppType) : Decidable (isRegistered apps app) := by
  unfold isRegistered; infer_instance

/-- The first entry of the table with the given type, the one `launchApp` finds. -/
def findApp (apps : List WatchApp) (app : AppType) : Option WatchApp :=
  apps.find? (fun a => decide (a.type = app))

/-! ## Vocabulary of the statements about `handleTouchInput` -/

/-- The local `touch_duration = millis() - touch_start_time` of a call. -/
def touchDuration (s : TouchState) (r : TouchRead) : Nat :=
  subU32 r.millis_now s.touch_start_time

/-- The local `dx = touch_x - last_touch_x` of a contact read. -/
def moveDx (s : TouchState) (r : TouchRead) : Int :=
  touch_x s.touch_cal r - s.last_touch_x

/-- The local `dy = touch_y - last_touch_y` of a contact read. -/
def moveDy (s : TouchState) (r : TouchRead) : Int :=
  touch_y s.touch_cal r - s.last_touch_y

/-- The four directional swipe events. -/
def isSwipe (e : TouchEvent) : Bool :=
  e = TOUCH_SWIPE_UP || e = TOUCH_SWIPE_DOWN || e = TOUCH_SWIPE_LEFT || e = TOUCH_SWIPE_RIGHT

/-- The events that end a press: RELEASE, TAP and LONG_PRESS. -/
def isTerminal (e : TouchEvent) : Bool :=
  e = TOUCH_RELEASE || e = TOUCH_TAP || e = TOUCH_LONG_PRESS

/-- The classifier state right after a press at display position (100, 100)
at clock value 0. -/
def pressedAt100 : TouchState :=
  (handleTouchInput initTouchState (contactAt 1133 949 0)).2

/-- Well-bracketed event traces: reading the trace from the left with the
flag `open` telling whether a PRESS is waiting for its terminal event, a
PRESS is allowed only when none is waiting, a terminal event only when one is,
and every other event leaves the flag alone. -/
def alternates : Bool → List TouchEvent → Prop
  | _, [] => True
  | b, e :: es =>
    if e = TOUCH_PRESS then b = false ∧ alternates true es
    else if isTerminal e = true then b = true ∧ alternates false es
    else alternates b es

/-- An event that neither opens nor ends a press. -/
def isQuiet (e : TouchEvent) : Prop := e ≠ TOUCH_PRESS ∧ isTerminal e = false

/-- A walk that fires one step at t=1000 and then crosses the threshold
upwards twice more, at t=1200 and t=1400, each time from a dip to 0.5. -/
def debounceSamples : List StepSample :=
  [⟨5 / 10, 900⟩, ⟨13 / 10, 1000⟩, ⟨5 / 10, 1100⟩,
   ⟨13 / 10, 1200⟩, ⟨5 / 10, 1300⟩, ⟨13 / 10, 1400⟩]

/-- A walk with exactly two rising crossings of the threshold, at t=1100 and
t=1300, each from a magnitude of 1.0: below the threshold 1.2, but not below
the valley bound 0.96. -/
def shallowSamples : List StepSample :=
  [⟨10 / 10, 1000⟩, ⟨13 / 10, 1100⟩, ⟨10 / 10, 1200⟩, ⟨13 / 10, 1300⟩]

/-- Non-decreasing clock readings, each inside the `unsigned long` range. -/
def timesOrdered (xs : List StepSample) : Prop :=
  xs.Pairwise (fun a b => a.time ≤ b.time) ∧ ∀ x ∈ xs, x.time < U32

/-- The sample at index `k + 1` is a rising crossing of the threshold: the
sample before it is not above the threshold and it is. -/
def isRisingCrossing (thr : ℚ) (xs : List StepSample) (k : Nat) : Prop :=
  ∃ a b, xs[k]? = some a ∧ xs[k + 1]? = some b ∧ a.magnitude ≤ thr ∧ thr < b.magnitude

/-- The result of a call of `detectStep` that falls through to `return false`. -/
def noFire (thr : ℚ) (s : StepState) (m : ℚ) : Bool × StepState :=
  (false, { step_in_progress := if m < thr * (7 / 10) then false else s.step_in_progress
            last_step := s.last_step
            last_magnitude := m })

/-- The navigation state on the watch face: the screen and app that
`exitCurrentApp` establishes, with the static initialisers of apps.cpp
(`current_app_index = 0`) and ui.cpp (`current_ui_screen = SCREEN_WATCHFACE`)
and no capability invoked yet. -/
def homeNavState : NavState :=
  { current_screen := SCREEN_WATCHFACE, current_app := APP_WATCHFACE
    current_app_index := 0, current_ui_screen := SCREEN_WATCHFACE, calls := [] }

/-- A registry table without the Weather entry: the first eight entries of
`registered_apps`. -/
def appsWithoutWeather : List WatchApp := registered_apps.take 8

/-! ## apps.cpp, ui.cpp: grid handler, dispatch and screen management -/

/-- The local `apps_per_row` of `handleAppGridTouch`. -/
def apps_per_row : Nat := 3

/-- The local `app_size` of `handleAppGridTouch`. -/
def app_size : Int := 60

/-- The local `spacing` of `handleAppGridTouch`. -/
def spacing : Int := 20

/-- The local `grid_width = apps_per_row * app_size + (apps_per_row - 1) * spacing`. -/
def grid_width : Int := apps_per_row * app_size + (apps_per_row - 1) * spacing

/-- The local `start_x = (DISPLAY_WIDTH - grid_width) / 2`. -/
def start_x : Int := Int.tdiv (DISPLAY_WIDTH - grid_width) 2

/-- The local `start_y` of `handleAppGridTouch`. -/
def start_y : Int := 80

/-- The hit test of loop index `i`: with `row = i / apps_per_row`,
`col = i % apps_per_row`, `x = start_x + col * (app_size + spacing)` and
`y = start_y + row * (app_size + spacing + 20)`, the condition
`gesture.x >= x && gesture.x <= x + app_size && gesture.y >= y && gesture.y <= y + app_size`. -/
def gridHit (i : Nat) (g : TouchGesture) : Prop :=
  g.x ≥ start_x + ((i % apps_per_row : Nat) : Int) * (app_size + spacing) ∧
  g.x ≤ start_x + ((i % apps_per_row : Nat) : Int) * (app_size + spacing) + app_size ∧
  g.y ≥ start_y + ((i / apps_per_row : Nat) : Int) * (app_size + spacing + 20) ∧
  g.y ≤ start_y + ((i / apps_per_row : Nat) : Int) * (app_size + spacing + 20) + app_size

instance (i : Nat) (g : TouchGesture) : Decidable (gridHit i g) := by
  unfold gridHit; infer_instance

/-- The loop of `handleAppGridTouch`,
`for (i = 0; i < num_registered_apps && i < 9; i++)`, over the entries from
index `i` on: the argument of the `launchApp` call it makes at the first
entry whose cell is hit, or `none` when the loop ends without a call. -/
def gridScan (g : TouchGesture) : List WatchApp → Nat → Option AppType
  | [], _ => none
  | a :: rest, i =>
    if i < 9 then
      if gridHit i g then some a.type else gridScan g rest (i + 1)
    else none

/-- The `launchApp` call that `handleAppGridTouch` makes for a gesture, if
any: none unless the event is TOUCH_TAP, else what the loop finds. -/
def gridLaunch (apps : List WatchApp) (g : TouchGesture) : Option AppType :=
  if g.event ≠ TOUCH_TAP then none else gridScan g apps 0

/-- The function `handleAppGridTouch(gesture)` over the registry table `apps`. -/
def handleAppGridTouch (apps : List WatchApp) (s : NavState) (g : TouchGesture) : NavState :=
  match gridLaunch apps g with
  | some app => launchApp apps s app
  | none => s

/-- The function that `handleUITouch` (ui.cpp) calls directly for a screen,
apart from the grid screen, which goes to `handleAppGridTouch`. -/
def uiTouchHandler : ScreenType → Option Func
  | SCREEN_MUSIC => some .handleMusicTouch
  | SCREEN_SETTINGS => some .handleSettingsTouch
  | _ => none

/-- The function `handleUITouch(gesture)`: the switch on `current_ui_screen`. -/
def handleUITouch (apps : List WatchApp) (s : NavState) (g : TouchGesture) : NavState :=
  match s.current_ui_screen with
  | SCREEN_APP_GRID => handleAppGridTouch apps s g
  | SCREEN_MUSIC => invoke (some .handleMusicTouch) s
  | SCREEN_QUESTS => s
  | SCREEN_SETTINGS => invoke (some .handleSettingsTouch) s
  | _ => s

/-- The function `setCurrentScreen(screen)` of ui.cpp. -/
def setCurrentScreen (s : NavState) (screen : ScreenType) : NavState :=
  { s with current_ui_screen := screen, current_screen := screen }

/-- The function `animateScreenTransition(from, to)` of ui.cpp: the slide is a
display effect, then `setCurrentScreen(to)`. -/
def animateScreenTransition (s : NavState) (_src dst : ScreenType) : NavState :=
  setCurrentScreen s dst

/-- The function `initializeUI()` of ui.cpp. -/
def initializeUI (s : NavState) : NavState :=
  { s with current_ui_screen := SCREEN_WATCHFACE }

/-- The function `initializeApps()` of apps.cpp: every present `init_func`
is invoked, in table order. -/
def initializeApps (apps : List WatchApp) (s : NavState) : NavState :=
  apps.foldl (fun st a => invoke a.init_func st) s

/-- The operations of apps.cpp and ui.cpp on the navigation variables, with
their arguments. -/
inductive NavOp where
  | initializeApps
  | launchApp (app : AppType)
  | exitCurrentApp
  | handleAppGridTouch (g : TouchGesture)
  | switchToApp (app : AppType)
  | initializeUI
  | setCurrentScreen (screen : ScreenType)
  | drawCurrentScreen
  | handleUITouch (g : TouchGesture)
  | animateScreenTransition (src dst : ScreenType)
  deriving DecidableEq

/-- One operation on the navigation variables. -/
def navStep (apps : List WatchApp) (s : NavState) : NavOp → NavState
  | .initializeApps => initializeApps apps s
  | .launchApp app => launchApp apps s app
  | .exitCurrentApp => exitCurrentApp apps s
  | .handleAppGridTouch g => handleAppGridTouch apps s g
  | .switchToApp app => switchToApp apps s app
  | .initializeUI => initializeUI s
  | .setCurrentScreen screen => setCurrentScreen s screen
  | .drawCurrentScreen => invoke (some (drawCurrentScreen s.current_ui_screen)) s
  | .handleUITouch g => handleUITouch apps s g
  | .animateScreenTransition src dst => animateScreenTransition s src dst

/-- A sequence of operations, oldest first. -/
def runNav (apps : List WatchApp) (s : NavState) (ops : List NavOp) : NavState :=
  ops.foldl (navStep apps) s

/-- The app id passed to `launchApp` or `switchToApp` has an entry in the
table (no condition on the other operations). -/
def launchesRegistered (apps : List WatchApp) : NavOp → Prop
  | .launchApp app => isRegistered apps app
  | .switchToApp app => isRegistered apps app
  | _ => True

instance (apps : List WatchApp) (op : NavOp) : Decidable (launchesRegistered apps op) := by
  cases op <;> unfold launchesRegistered <;> infer_instance

/-- The cell of grid index `i` in words: column `i mod 3`, row `i div 3`,
origin `(74 + 80·col, 80 + 100·row)`, size 60, bounds inclusive. -/
def inCell (i : Nat) (x y : Int) : Prop :=
  74 + 80 * ((i % 3 : Nat) : Int) ≤ x ∧ x ≤ 74 + 80 * ((i % 3 : Nat) : Int) + 60 ∧
  80 + 100 * ((i / 3 : Nat) : Int) ≤ y ∧ y ≤ 80 + 100 * ((i / 3 : Nat) : Int) + 60

instance (i : Nat) (x y : Int) : Decidable (inCell i x y) := by
  unfold inCell; infer_instance

/-- A TOUCH_TAP gesture at display position `(x, y)`. -/
def tapAt (x y : Int) : TouchGesture :=
  { event := TOUCH_TAP, x := x, y := y, start_x := x, start_y := y, end_x := x, end_y := y
    timestamp := 0, duration := 100, is_valid := true }

/-- The cleanup capability that the table declares for an app id: that of the
first entry of that type. -/
def cleanupOf (apps : List WatchApp) (app : AppType) : Option Func :=
  (findApp apps app).bind WatchApp.cleanup_func

/-- The init capability that the table declares for an app id: that of the
first entry of that type. -/
def initOf (apps : List WatchApp) (app : AppType) : Option Func :=
  (findApp apps app).bind WatchApp.init_func

/-- The touch capability that the table declares for an app id. -/
def touchOf (apps : List WatchApp) (app : AppType) : Option Func :=
  (findApp apps app).bind WatchApp.touch_func

/-- The navigation state right after `launchApp(APP_MUSIC)` from the watch face. -/
def musicNavState : NavState := launchApp registered_apps homeNavState APP_MUSIC

/-- A read that finds the touch interrupt line high at clock value `t`. -/
def noSampleAt (t : Nat) : TouchRead :=
  { int_high := true, available := 0, status := 0
    x_high := 0, x_low := 0, y_high := 0, y_low := 0
    pressure := 0, millis_entry := t, millis_now := t }

/-- A read with the interrupt line low that delivers only three bytes. -/
def shortReadAt (t : Nat) : TouchRead :=
  { int_high := false, available := 3, status := 1
    x_high := 4, x_low := 109, y_high := 3, y_low := 181
    pressure := 0, millis_entry := t, millis_now := t }

/-- A gesture without event, as `handleTouchInput` returns it when nothing
happened, carrying the position `(x, y)`. -/
def noneAt (x y : Int) : TouchGesture :=
  { event := TOUCH_NONE, x := x, y := y, start_x := 0, start_y := 0, end_x := 0, end_y := 0
    timestamp := 0, duration := 0, is_valid := false }

/-! ## sensors.cpp: step counter

`current_imu` is kept as the magnitude of its acceleration, the only part of
it that step counting uses.  The products `daily_steps * 0.04` and
`daily_steps * 0.0007` are taken as exact rationals; `daily_steps` never
comes near the end of the `int` range. -/

/-- The struct `StepData` of sensors.h. -/
structure StepData where
  daily_steps : Int
  calories_burned : Int
  distance_km : ℚ
  active_minutes : Int
  last_step_time : Nat
  deriving DecidableEq

/-- The file-level variables of sensors.cpp that `updateStepCounter` reads
and writes, with the static variables of `detectStep` (`detector`). -/
structure SensorState where
  current_imu : ℚ
  step_data : StepData
  last_step_check : Nat
  step_detection_active : Bool
  detector : StepState
  deriving DecidableEq

/-- The variables after `initializeSensors`. -/
def initSensorState : SensorState :=
  { current_imu := 0
    step_data := { daily_steps := 0, calories_burned := 0, distance_km := 0
                   active_minutes := 0, last_step_time := 0 }
    last_step_check := 0
    step_detection_active := true
    detector := initStepState }

/-- What one call of `updateStepCounter` would read: `millis()` on entry, the
magnitude of the sample that `readIMU` returns, and `millis()` inside
`detectStep`. -/
structure StepPoll where
  current_time : Nat
  magnitude : ℚ
  detect_time : Nat
  deriving DecidableEq

/-- The update of `step_data` when `detectStep` returned true. -/
def countStep (d : StepData) (current_time : Nat) : StepData :=
  { d with
    daily_steps := d.daily_steps + 1
    last_step_time := current_time % U32
    calories_burned := Int.tdiv ((d.daily_steps + 1) * 4) 100
    distance_km := ((d.daily_steps + 1 : Int) : ℚ) * (7 / 10000) }

/-- One call of `updateStepCounter` with the global `step_threshold`. -/
def updateStepCounter (step_threshold : ℚ) (s : SensorState) (p : StepPoll) : SensorState :=
  if !s.step_detection_active then s
  else if subU32 p.current_time s.last_step_check < 50 then s
  else
    let r := detectStep step_threshold s.detector p.magnitude p.detect_time
    { s with
      current_imu := p.magnitude
      detector := r.2
      step_data := if r.1 = true then countStep s.step_data p.current_time else s.step_data
      last_step_check := p.current_time % U32 }

/-- A call is accepted when it gets past both early returns and reads a
sample. -/
def accepts (s : SensorState) (p : StepPoll) : Prop :=
  s.step_detection_active = true ∧ ¬ subU32 p.current_time s.last_step_check < 50

instance (s : SensorState) (p : StepPoll) : Decidable (accepts s p) := by
  unfold accepts; infer_instance

/-- Feed a sequence of polls to `updateStepCounter`; for each, whether it was
accepted, and the final state. -/
def runPolls (thr : ℚ) : SensorState → List StepPoll → List Bool × SensorState
  | s, [] => ([], s)
  | s, p :: ps =>
    let (bs, s2) := runPolls thr (updateStepCounter thr s p) ps
    (decide (accepts s p) :: bs, s2)

/-- Which calls of a sequence of polls were accepted. -/
def acceptedCalls (thr : ℚ) (s : SensorState) (ps : List StepPoll) : List Bool :=
  (runPolls thr s ps).1

/-- Non-decreasing entry clock readings, each inside the `unsigned long` range. -/
def pollsOrdered (ps : List StepPoll) : Prop :=
  ps.Pairwise (fun a b => a.current_time ≤ b.current_time) ∧ ∀ p ∈ ps, p.current_time < U32

/-- Three polls at t = 1000, 1030 and 1060 with magnitudes 0.5, 1.3, 1.3. -/
def samplePolls : List StepPoll :=
  [⟨1000, 5 / 10, 1001⟩, ⟨1030, 13 / 10, 1031⟩, ⟨1060, 13 / 10, 1061⟩]

/-- The predicate `registered_apps[current_app_index].type == system_state.current_app`. -/
def indexTracksApp (apps : List WatchApp) (s : NavState) : Prop :=
  ∃ a, apps[s.current_app_index]? = some a ∧ a.type = s.current_app

instance (apps : List WatchApp) (s : NavState) : Decidable (indexTracksApp apps s) := by
  unfold indexTracksApp
  cases h : apps[s.current_app_index]? with
  | none => exact isFalse (by simp)
  | some a =>
    exact decidable_of_iff (a.type = s.current_app) (by simp)

/-- The two copies of the current screen agree. -/
def screensAgree (s : NavState) : Prop := s.current_ui_screen = s.current_screen

instance (s : NavState) : Decidable (screensAgree s) := by
  unfold screensAgree; infer_instance

/-- The nine values of `AppType`, in the order of the enum. -/
def allAppTypes : List AppType :=
  [APP_WATCHFACE, APP_QUESTS, APP_MUSIC, APP_NOTES, APP_FILES, APP_SETTINGS,
   APP_PDF_READER, APP_WEATHER, APP_GAMES]

/-- The last recorded position is on the display whenever a press is in
progress. -/
def lastOnDisplay (s : TouchState) : Prop :=
  s.touch_pressed = true →
    0 ≤ s.last_touch_x ∧ s.last_touch_x ≤ 367 ∧ 0 ≤ s.last_touch_y ∧ s.last_touch_y ≤ 447

/-- The reported position of a gesture is on the display. -/
def onDisplay (g : TouchGesture) : Prop :=
  0 ≤ g.x ∧ g.x ≤ 367 ∧ 0 ≤ g.y ∧ g.y ≤ 447

/-! ## touch.cpp: recognizeGesture -/

/-- The local `distance = sqrt(dx*dx + dy*dy)` of `recognizeGesture`, an `int`:
the square root of a non-negative integer below 2^31, truncated, which is the
integer square root. -/
def gestureDistance (dx dy : Int) : Int := (Nat.sqrt (dx * dx + dy * dy).toNat : Nat)

/-- The function `recognizeGesture(start_x, start_y, end_x, end_y, duration)`. -/
def recognizeGesture (start_x start_y end_x end_y : Int) (duration : Nat) : TouchEvent :=
  let dx := end_x - start_x
  let dy := end_y - start_y
  let distance := gestureDistance dx dy
  if duration > 800 ∧ distance < 20 then TOUCH_LONG_PRESS
  else if duration < 300 ∧ distance < 20 then TOUCH_TAP
  else if distance > 50 ∧ duration < 500 then
    if abs dx > abs dy then (if dx > 0 then TOUCH_SWIPE_RIGHT else TOUCH_SWIPE_LEFT)
    else (if dy > 0 then TOUCH_SWIPE_DOWN else TOUCH_SWIPE_UP)
  else TOUCH_NONE

/-- A point of the display surface. -/
def inDisplay (x y : Int) : Prop := 0 ≤ x ∧ x ≤ 367 ∧ 0 ≤ y ∧ y ≤ 447

instance (x y : Int) : Decidable (inDisplay x y) := by unfold inDisplay; infer_instance

/-! ## power.cpp: battery percentage -/

/-- The conversion of `voltage_mv` to `percentage` in `updateBatteryStatus`:
the piecewise-linear mapping followed by the two bounds checks.  Divisions are
C's truncating ones; for every voltage that the function can compute
(0..4504 mV from the 12-bit register, 3200..3680 mV simulated) the products
stay far inside the `int` range. -/
def batteryPercentage (voltage_mv : Int) : Int :=
  let percentage :=
    if voltage_mv ≥ 4100 then 100
    else if voltage_mv ≥ 3900 then 80 + Int.tdiv ((voltage_mv - 3900) * 20) 200
    else if voltage_mv ≥ 3700 then 40 + Int.tdiv ((voltage_mv - 3700) * 40) 200
    else if voltage_mv ≥ 3400 then 10 + Int.tdiv ((voltage_mv - 3400) * 30) 300
    else Int.tdiv ((voltage_mv - 3200) * 10) 200
  let percentage := if percentage > 100 then 100 else percentage
  if percentage < 0 then 0 else percentage

/-! ## rtc.h, rtc.cpp: BCD time registers -/

/-- The struct `WatchTime` of rtc.h. -/
structure WatchTime where
  hour : Int
  minute : Int
  second : Int
  day : Int
  month : Int
  year : Int
  weekday : Int
  deriving DecidableEq

/-- The function `isValidTime(time)`. -/
def isValidTime (t : WatchTime) : Bool :=
  decide (t.hour ≥ 0 ∧ t.hour ≤ 23 ∧
          t.minute ≥ 0 ∧ t.minute ≤ 59 ∧
          t.second ≥ 0 ∧ t.second ≤ 59 ∧
          t.day ≥ 1 ∧ t.day ≤ 31 ∧
          t.month ≥ 1 ∧ t.month ≤ 12 ∧
          t.year ≥ 2000 ∧ t.year ≤ 2099)

/-- The conversion `(v % 10) | ((v / 10) << 4)` stored in a `uint8_t`;
`setCurrentTime` applies it only to values that `isValidTime` found
non-negative. -/
def toBCD (v : Int) : Nat := u8 ((v.toNat % 10) ||| ((v.toNat / 10) <<< 4))

/-- The conversion of an `int` to `uint8_t`. -/
def intToU8 (v : Int) : Nat := (v % 256).toNat

/-- The function `setCurrentTime(time)`: the seven register bytes written to
the clock chip from register 0x04 on (seconds, minutes, hours, days, weekdays,
months, years), or `none` when it returns without writing. -/
def setCurrentTime (t : WatchTime) : Option (List Nat) :=
  if !isValidTime t then none
  else some [toBCD t.second, toBCD t.minute, toBCD t.hour, toBCD t.day,
             intToU8 t.weekday, toBCD t.month, toBCD (t.year - 2000)]

/-- The conversion `(b & 0x0F) + ((b >> 4) & mask) * 10` of a register byte. -/
def fromBCD (b : Nat) (mask : Nat) : Int :=
  (((u8 b &&& 0x0F) + ((u8 b >>> 4) &&& mask) * 10 : Nat) : Int)

/-- What one call of `getCurrentTime` reads: the number of bytes the clock
chip delivered, the seven register bytes, and the system time used as the
fallback. -/
structure RtcRead where
  available : Nat
  seconds : Nat
  minutes : Nat
  hours : Nat
  days : Nat
  weekdays : Nat
  months : Nat
  years : Nat
  system_time : WatchTime
  deriving DecidableEq

/-- The function `getCurrentTime()`. -/
def getCurrentTime (r : RtcRead) : WatchTime :=
  if r.available ≥ 7 then
    { second := fromBCD r.seconds 0x07
      minute := fromBCD r.minutes 0x07
      hour := fromBCD r.hours 0x03
      day := fromBCD r.days 0x03
      weekday := ((u8 r.weekdays &&& 0x07 : Nat) : Int)
      month := fromBCD r.months 0x01
      year := 2000 + fromBCD r.years 0x0F }
  else r.system_time

/-- A read of the clock chip that returns the given seven register bytes. -/
def rtcReadOf (bytes : List Nat) (fallback : WatchTime) : RtcRead :=
  { available := 7
    seconds := bytes.getD 0 0, minutes := bytes.getD 1 0, hours := bytes.getD 2 0
    days := bytes.getD 3 0, weekdays := bytes.getD 4 0, months := bytes.getD 5 0
    years := bytes.getD 6 0, system_time := fallback }

/-- The time 23:59:58 on Friday 31 December 2099. -/
def lastEvening : WatchTime :=
  { hour := 23, minute := 59, second := 58, day := 31, month := 12, year := 2099, weekday := 5 }

/-! ## stopwatch_app.cpp: timer buttons -/

inductive StopwatchMode where
  | MODE_STOPWATCH
  | MODE_TIMER
  | MODE_ALARMS
  deriving DecidableEq

/-- The struct `StopwatchAppState` of stopwatch_app.cpp. -/
structure StopwatchAppState where
  current_mode : StopwatchMode
  timer_minutes : Int
  timer_seconds : Int
  timer_running : Bool
  timer_start_time : Nat
  timer_total_seconds : Int
  selected_alarm : Int
  deriving DecidableEq

/-- The block "Time adjustment buttons" of `handleTimerTouch`. -/
def timerAdjust (s : StopwatchAppState) (g : TouchGesture) : StopwatchAppState :=
  if g.y ≥ 220 ∧ g.y ≤ 250 then
    let s1 : StopwatchAppState :=
      if g.x ≥ 20 ∧ g.x ≤ 80 then
        { s with timer_minutes := if s.timer_minutes + 1 > 59 then 59 else s.timer_minutes + 1 }
      else if g.x ≥ 90 ∧ g.x ≤ 150 then
        if s.timer_seconds + 10 ≥ 60 then
          { s with timer_seconds := s.timer_seconds + 10 - 60
                   timer_minutes := s.timer_minutes + 1 }
        else { s with timer_seconds := s.timer_seconds + 10 }
      else if g.x ≥ 160 ∧ g.x ≤ 220 then
        if s.timer_seconds - 10 < 0 then
          { s with timer_seconds := s.timer_seconds - 10 + 60
                   timer_minutes := if s.timer_minutes > 0 then s.timer_minutes - 1
                                    else s.timer_minutes }
        else { s with timer_seconds := s.timer_seconds - 10 }
      else if g.x ≥ 230 ∧ g.x ≤ 290 then
        { s with timer_minutes := if s.timer_minutes > 0 then s.timer_minutes - 1
                                  else s.timer_minutes }
      else s
    { s1 with timer_total_seconds := s1.timer_minutes * 60 + s1.timer_seconds }
  else s

/-- The block "Preset buttons" of `handleTimerTouch`. -/
def timerPreset (s : StopwatchAppState) (g : TouchGesture) : StopwatchAppState :=
  if g.y ≥ 380 ∧ g.y ≤ 410 then
    let s1 : StopwatchAppState :=
      if g.x ≥ 20 ∧ g.x ≤ 90 then { s with timer_minutes := 1, timer_seconds := 0 }
      else if g.x ≥ 100 ∧ g.x ≤ 170 then { s with timer_minutes := 5, timer_seconds := 0 }
      else if g.x ≥ 180 ∧ g.x ≤ 250 then { s with timer_minutes := 10, timer_seconds := 0 }
      else if g.x ≥ 260 ∧ g.x ≤ 330 then { s with timer_minutes := 30, timer_seconds := 0 }
      else s
    { s1 with timer_total_seconds := s1.timer_minutes * 60 + s1.timer_seconds }
  else s

/-- The block "Control buttons" of `handleTimerTouch`, with `millis()`
returning `now`; the second component is the number of minutes passed to
`startTimer` (rtc.cpp) when START is tapped. -/
def timerControl (s : StopwatchAppState) (g : TouchGesture) (now : Nat) :
    StopwatchAppState × Option Int :=
  if g.y ≥ 300 ∧ g.y ≤ 350 then
    if s.timer_running then
      if g.x ≥ 50 ∧ g.x ≤ 150 then ({ s with timer_running := false }, none)
      else if g.x ≥ 200 ∧ g.x ≤ 300 then
        ({ s with timer_running := false, timer_minutes := 5, timer_seconds := 0
                  timer_total_seconds := 300 }, none)
      else (s, none)
    else
      if g.x ≥ 125 ∧ g.x ≤ 225 then
        ({ s with timer_running := true, timer_start_time := now % U32 }, some s.timer_minutes)
      else (s, none)
  else (s, none)

/-- The function `handleTimerTouch(gesture)`. -/
def handleTimerTouch (s : StopwatchAppState) (g : TouchGesture) (now : Nat) :
    StopwatchAppState × Option Int :=
  let s1 := if !s.timer_running then timerPreset (timerAdjust s g) g else s
  timerControl s1 g now

/-- A stopped timer set to `m` minutes and `sec` seconds, its total consistent. -/
def stoppedTimer (m sec : Int) : StopwatchAppState :=
  { current_mode := .MODE_TIMER, timer_minutes := m, timer_seconds := sec
    timer_running := false, timer_start_time := 0
    timer_total_seconds := m * 60 + sec, selected_alarm := 0 }

/-- A tap lies on the −10s button: `y` in 220..250 and `x` in 160..220. -/
def onMinus10 (g : TouchGesture) : Prop := g.y ≥ 220 ∧ g.y ≤ 250 ∧ g.x ≥ 160 ∧ g.x ≤ 220

instance (g : TouchGesture) : Decidable (onMinus10 g) := by unfold onMinus10; infer_instance

/-! ## The whole program: `system_state` and the functions that assign to it

`system_state` (config.h) is assigned in fifteen functions of the program and
nowhere else; no function takes its address or copies the struct.  They are
embedded here, with the functions that call them, on a state that holds
`system_state` and the two navigation statics.  The other globals of the
program (display buffer, battery info, music, game and quest state, ...) are
not part of this state: a value an embedded function reads from them, from a
file or from the hardware is an input of the operation. -/

/-- The enum `ThemeType` of config.h. -/
inductive ThemeType where
  | THEME_LUFFY_GEAR5
  | THEME_SUNG_JINWOO
  | THEME_YUGO_WAKFU
  deriving DecidableEq

open ThemeType

/-- The fields of the struct `SystemState` (config.h) other than
`current_screen` and `current_app`, which `NavState` holds; `float` is kept
as an exact rational and `String` as a string. -/
structure SystemFields where
  current_theme : ThemeType
  battery_percentage : Int
  is_charging : Bool
  low_battery_warning : Bool
  low_power_mode : Bool
  brightness : Int
  sleep_timer : Nat
  wake_time : Int
  sleep_time : Int
  steps_today : Int
  step_goal : Int
  heart_rate : ℚ
  touch_active : Bool
  touch_x : Int
  touch_y : Int
  button_pressed : Bool
  current_quest : Int
  music_playing : Bool
  current_song : Int
  current_note : String
  current_pdf : String
  total_mp3_files : Int
  total_pdf_files : Int

/-- The function `loadNote()` of apps.cpp; `notes_file` is what
`readTextFile("/notes.txt")` returns. -/
def loadNote (s : SystemFields) (notes_file : String) : SystemFields :=
  { s with current_note := notes_file }

/-- The function `handleNotesTouch(gesture)` of apps.cpp; `millis` is the clock
reading, `notes_file` what `readTextFile("/notes.txt")` returns.  `saveNote()`
writes the file and leaves `system_state` as it is. -/
def handleNotesTouch (s : SystemFields) (g : TouchGesture) (millis : Nat)
    (notes_file : String) : SystemFields :=
  if g.event ≠ TOUCH_TAP then s
  else if g.y ≥ 280 ∧ g.y ≤ 320 then
    { s with current_note := "Sample note created at " ++ toString millis }
  else if g.y ≥ 330 ∧ g.y ≤ 370 then s
  else if g.y ≥ 380 ∧ g.y ≤ 420 then loadNote s notes_file
  else s

/-- The function `handleSettingsTouch(gesture)` of apps.cpp.  `setTheme` and
`setDisplayBrightness` act on the theme pointer of themes.cpp and on the
backlight. -/
def handleSettingsTouch (s : SystemFields) (g : TouchGesture) : SystemFields :=
  if g.event ≠ TOUCH_TAP then s
  else
    let s1 :=
      if g.y ≥ 100 ∧ g.y ≤ 130 then
        if g.x ≥ 20 ∧ g.x ≤ 120 then { s with current_theme := THEME_LUFFY_GEAR5 }
        else if g.x ≥ 130 ∧ g.x ≤ 230 then { s with current_theme := THEME_SUNG_JINWOO }
        else if g.x ≥ 240 ∧ g.x ≤ 340 then { s with current_theme := THEME_YUGO_WAKFU }
        else s
      else s
    let s2 :=
      if g.y ≥ 180 ∧ g.y ≤ 200 then
        { s1 with brightness := map g.x 20 (DISPLAY_WIDTH - 20) 10 100 }
      else s1
    if g.y ≥ 240 ∧ g.y ≤ 270 then
      if g.x ≥ 20 ∧ g.x ≤ 100 then { s2 with step_goal := 5000 }
      else if g.x ≥ 110 ∧ g.x ≤ 190 then { s2 with step_goal := 10000 }
      else if g.x ≥ 200 ∧ g.x ≤ 280 then { s2 with step_goal := 15000 }
      else s2
    else s2

/-- C1. A release read that arrives while a press is in progress is classified
by `duration = now − press start time`: TAP iff `duration < 200`, LONG_PRESS
iff `duration > 800`, RELEASE iff `200 ≤ duration ≤ 800`; the gesture is
valid, carries that duration, and the classifier is not pressed afterwards
(nothing else changes).  A release read while no press is in progress yields
no event and leaves the state alone.  The reads press (100,100) at t=0,
release at t=150 yield a PRESS, then one TAP. -/
theorem handleTouchInput_release (s : TouchState) (r : TouchRead) (hr : isReleaseRead r) :
    (s.touch_pressed = true →
      ((handleTouchInput s r).1.event = TOUCH_TAP ↔ touchDuration s r < 200) ∧
      ((handleTouchInput s r).1.event = TOUCH_LONG_PRESS ↔ touchDuration s r > 800) ∧
      ((handleTouchInput s r).1.event = TOUCH_RELEASE ↔
        200 ≤ touchDuration s r ∧ touchDuration s r ≤ 800) ∧
      (handleTouchInput s r).1.is_valid = true ∧
      (handleTouchInput s r).1.duration = touchDuration s r ∧
      (handleTouchInput s r).2 = { s with touch_pressed := false }) ∧
    (s.touch_pressed = false →
      (handleTouchInput s r).1.event = TOUCH_NONE ∧
      (handleTouchInput s r).1.is_valid = false ∧
      (handleTouchInput s r).2 = s) ∧
    (runTouch initTouchState [contactAt 1133 949 0, releaseAt 150]).1 =
      [ { event := TOUCH_PRESS, x := 100, y := 100, start_x := 100, start_y := 100
          end_x := 0, end_y := 0, timestamp := 0, duration := 0, is_valid := true },
        { event := TOUCH_TAP, x := 100, y := 100, start_x := 100, start_y := 100
          end_x := 100, end_y := 100, timestamp := 150, duration := 150, is_valid := true } ] := by
  obtain ⟨⟨h1, h2⟩, h3⟩ := hr
  have h2' : ¬ r.available < 6 := Nat.not_lt.mpr h2
  refine ⟨?_, ?_, by decide⟩
  · intro hp
    simp only [handleTouchInput, h1, h2', h3, hp, touchDuration]
    by_cases hl : subU32 r.millis_now s.touch_start_time > 800
    · have : ¬ subU32 r.millis_now s.touch_start_time < 200 := by omega
      simp [hl]
      omega
    · by_cases ht : subU32 r.millis_now s.touch_start_time < 200
      · simp [hl, ht]
      · simp [hl, ht]
        omega
  · intro hp
    simp [handleTouchInput, h1, h2', h3, hp, emptyGesture]

/-- Witness of C1: the release at t=150 after the press at t=0 is a TAP. -/
theorem handleTouchInput_release_witness :
    isReleaseRead (releaseAt 150) ∧ pressedAt100.touch_pressed = true ∧
    touchDuration pressedAt100 (releaseAt 150) = 150 ∧
    (handleTouchInput pressedAt100 (releaseAt 150)).1.event = TOUCH_TAP :=
  ⟨by decide, by decide, by decide,
   ((handleTouchInput_release pressedAt100 (releaseAt 150) (by decide)).1 (by decide)).1.2
     (by decide)⟩


/-- Facts about the Arduino `abs` macro used by the swipe proofs. -/
theorem abs_macro_nonneg (x : Int) : 0 ≤ abs x := by
  unfold abs
  split_ifs <;> omega

theorem abs_macro_ne_zero {x : Int} {n : Int} (hn : 0 ≤ n) (h : abs x > n) : x ≠ 0 := by
  unfold abs at h
  split_ifs at h <;> omega

/-- The gesture of a contact read while pressed: nothing when neither
displacement exceeds 5, else MOVE or a swipe as the nested conditions say. -/
theorem handleTouchInput_contact_pressed (s : TouchState) (r : TouchRead)
    (hr : isContactRead r) (hp : s.touch_pressed = true) :
    (handleTouchInput s r).1.event =
      if abs (moveDx s r) > 5 ∨ abs (moveDy s r) > 5 then
        if touchDuration s r > 100 ∧ touchDuration s r < 500 then
          if abs (moveDx s r) > abs (moveDy s r) ∧ abs (moveDx s r) > 50 then
            (if moveDx s r > 0 then TOUCH_SWIPE_RIGHT else TOUCH_SWIPE_LEFT)
          else if abs (moveDy s r) > abs (moveDx s r) ∧ abs (moveDy s r) > 50 then
            (if moveDy s r > 0 then TOUCH_SWIPE_DOWN else TOUCH_SWIPE_UP)
          else TOUCH_MOVE
        else TOUCH_MOVE
      else TOUCH_NONE := by
  obtain ⟨⟨h1, h2⟩, h3⟩ := hr
  have h2' : ¬ r.available < 6 := Nat.not_lt.mpr h2
  simp only [handleTouchInput, h1, h2', h3, hp, touchDuration, moveDx, moveDy]
  by_cases hm : abs (touch_x s.touch_cal r - s.last_touch_x) > 5 ∨
      abs (touch_y s.touch_cal r - s.last_touch_y) > 5
  · simp [hm]
  · simp [hm, emptyGesture]

/-- C3. For a contact read while pressed, with `(dx, dy)` the displacement
from the last recorded position and `elapsed = now − press start time`: a
swipe event is produced only if `100 < elapsed < 500` and
`max(|dx|,|dy|) > 50`; and when these hold with `|dx| ≠ |dy|` the event is
the swipe along the dominant axis (RIGHT/LEFT by the sign of `dx` when
`|dx| > |dy|`, DOWN/UP by the sign of `dy` when `|dy| > |dx|`), not MOVE.
The reads press (100,100) at t=0, contact (160,100) at t=250 yield PRESS,
then SWIPE_RIGHT. -/
theorem handleTouchInput_swipe (s : TouchState) (r : TouchRead)
    (hr : isContactRead r) (hp : s.touch_pressed = true) :
    (isSwipe (handleTouchInput s r).1.event = true →
      100 < touchDuration s r ∧ touchDuration s r < 500 ∧
      max (abs (moveDx s r)) (abs (moveDy s r)) > 50) ∧
    (100 < touchDuration s r → touchDuration s r < 500 →
      max (abs (moveDx s r)) (abs (moveDy s r)) > 50 → abs (moveDx s r) ≠ abs (moveDy s r) →
      isSwipe (handleTouchInput s r).1.event = true ∧
      (handleTouchInput s r).1.event ≠ TOUCH_MOVE ∧
      (abs (moveDx s r) > abs (moveDy s r) →
        (moveDx s r > 0 → (handleTouchInput s r).1.event = TOUCH_SWIPE_RIGHT) ∧
        (moveDx s r < 0 → (handleTouchInput s r).1.event = TOUCH_SWIPE_LEFT)) ∧
      (abs (moveDy s r) > abs (moveDx s r) →
        (moveDy s r > 0 → (handleTouchInput s r).1.event = TOUCH_SWIPE_DOWN) ∧
        (moveDy s r < 0 → (handleTouchInput s r).1.event = TOUCH_SWIPE_UP))) ∧
    touchEvents initTouchState [contactAt 1133 949 0, contactAt 1753 949 250] =
      [TOUCH_PRESS, TOUCH_SWIPE_RIGHT] := by
  rw [handleTouchInput_contact_pressed s r hr hp]
  have hx := abs_macro_nonneg (moveDx s r)
  have hy := abs_macro_nonneg (moveDy s r)
  refine ⟨?_, ?_, by decide⟩
  · intro h
    split_ifs at h with a b c d e f <;> simp [isSwipe] at h <;>
      refine ⟨b.1, b.2, ?_⟩ <;> simp only [gt_iff_lt, lt_max_iff] <;> omega
  · intro h1 h2 h3 h4
    have h5 : abs (moveDx s r) > 5 ∨ abs (moveDy s r) > 5 := by
      rcases lt_max_iff.mp h3 with h | h
      · exact Or.inl (by omega)
      · exact Or.inr (by omega)
    rw [if_pos h5, if_pos ⟨h1, h2⟩]
    rcases lt_or_gt_of_ne h4 with h | h
    · have h6 : abs (moveDy s r) > 50 := by
        rcases lt_max_iff.mp h3 with h' | h' <;> omega
      have h7 : ¬ (abs (moveDx s r) > abs (moveDy s r) ∧ abs (moveDx s r) > 50) := by omega
      have h8 := abs_macro_ne_zero (by decide) h6
      rw [if_neg h7, if_pos ⟨h, h6⟩]
      by_cases h9 : moveDy s r > 0
      · simp [h9, isSwipe]
        omega
      · simp [h9, isSwipe]
        omega
    · have h6 : abs (moveDx s r) > 50 := by
        rcases lt_max_iff.mp h3 with h' | h' <;> omega
      have h8 := abs_macro_ne_zero (by decide) h6
      rw [if_pos ⟨h, h6⟩]
      by_cases h9 : moveDx s r > 0
      · simp [h9, isSwipe]
        omega
      · simp [h9, isSwipe]
        omega

/-- Witness of C3: after the press at (100,100) at t=0, the contact read at
(160,100) at t=250 has dx = 60, dy = 0, elapsed = 250 and is a SWIPE_RIGHT. -/
theorem handleTouchInput_swipe_witness :
    isContactRead (contactAt 1753 949 250) ∧ pressedAt100.touch_pressed = true ∧
    moveDx pressedAt100 (contactAt 1753 949 250) = 60 ∧
    moveDy pressedAt100 (contactAt 1753 949 250) = 0 ∧
    touchDuration pressedAt100 (contactAt 1753 949 250) = 250 ∧
    (handleTouchInput pressedAt100 (contactAt 1753 949 250)).1.event = TOUCH_SWIPE_RIGHT :=
  ⟨by decide, by decide, by decide, by decide, by decide,
   ((((handleTouchInput_swipe pressedAt100 (contactAt 1753 949 250) (by decide) (by decide)).2.1
     (by decide) (by decide) (by decide) (by decide)).2.2.1) (by decide)).1 (by decide)⟩

/-- C4, counterexample.  After the press at (100,100) at t=0, the contact read
at (160,160) at t=250 has `100 < elapsed < 500`, `|dx| = |dy| = 60 > 50` and
`dy > 0`, yet the returned event is TOUCH_MOVE, not TOUCH_SWIPE_DOWN. -/
theorem handleTouchInput_tie_counterexample :
    isContactRead (contactAt 1753 1458 250) ∧ pressedAt100.touch_pressed = true ∧
    100 < touchDuration pressedAt100 (contactAt 1753 1458 250) ∧
    touchDuration pressedAt100 (contactAt 1753 1458 250) < 500 ∧
    abs (moveDx pressedAt100 (contactAt 1753 1458 250)) =
      abs (moveDy pressedAt100 (contactAt 1753 1458 250)) ∧
    abs (moveDy pressedAt100 (contactAt 1753 1458 250)) > 50 ∧
    moveDy pressedAt100 (contactAt 1753 1458 250) > 0 ∧
    (handleTouchInput pressedAt100 (contactAt 1753 1458 250)).1.event ≠ TOUCH_SWIPE_DOWN ∧
    (handleTouchInput pressedAt100 (contactAt 1753 1458 250)).1.event = TOUCH_MOVE := by
  decide

/-- C4, as amended.  For a contact read while pressed with
`100 < elapsed < 500` and `|dx| = |dy| > 50`, neither strict comparison of
the swipe test holds: the returned event is a valid plain TOUCH_MOVE to the
sample position, and no swipe. -/
theorem handleTouchInput_tie_is_move (s : TouchState) (r : TouchRead)
    (hr : isContactRead r) (hp : s.touch_pressed = true)
    (h1 : 100 < touchDuration s r) (h2 : touchDuration s r < 500)
    (h3 : abs (moveDx s r) = abs (moveDy s r)) (h4 : abs (moveDy s r) > 50) :
    (handleTouchInput s r).1.event = TOUCH_MOVE ∧
    isSwipe (handleTouchInput s r).1.event = false ∧
    (handleTouchInput s r).1.is_valid = true ∧
    (handleTouchInput s r).1.x = touch_x s.touch_cal r ∧
    (handleTouchInput s r).1.y = touch_y s.touch_cal r := by
  have hev := handleTouchInput_contact_pressed s r hr hp
  have h5 : abs (moveDx s r) > 5 ∨ abs (moveDy s r) > 5 := Or.inr (by omega)
  have h6 : ¬ (abs (moveDx s r) > abs (moveDy s r) ∧ abs (moveDx s r) > 50) := by omega
  have h7 : ¬ (abs (moveDy s r) > abs (moveDx s r) ∧ abs (moveDy s r) > 50) := by omega
  rw [if_pos h5, if_pos ⟨h1, h2⟩, if_neg h6, if_neg h7] at hev
  refine ⟨hev, by rw [hev]; rfl, ?_⟩
  obtain ⟨⟨a1, a2⟩, a3⟩ := hr
  have a2' : ¬ r.available < 6 := Nat.not_lt.mpr a2
  simp only [moveDx, moveDy] at h5
  simp [handleTouchInput, a1, a2', a3, hp, h5]

/-- Witness of C4 as amended, at the tie (160,160) after the press at (100,100). -/
theorem handleTouchInput_tie_is_move_witness :
    isContactRead (contactAt 1753 1458 250) ∧ pressedAt100.touch_pressed = true ∧
    (handleTouchInput pressedAt100 (contactAt 1753 1458 250)).1.event = TOUCH_MOVE :=
  ⟨by decide, by decide,
   (handleTouchInput_tie_is_move pressedAt100 (contactAt 1753 1458 250) (by decide) (by decide)
     (by decide) (by decide) (by decide) (by decide)).1⟩

/-- What one call does to the pressed flag, by the kind of event returned. -/
theorem handleTouchInput_flag (s : TouchState) (r : TouchRead) :
    ((handleTouchInput s r).1.event = TOUCH_PRESS ∧ s.touch_pressed = false ∧
      (handleTouchInput s r).2.touch_pressed = true) ∨
    (isTerminal (handleTouchInput s r).1.event = true ∧ s.touch_pressed = true ∧
      (handleTouchInput s r).2.touch_pressed = false ∧ isReleaseRead r) ∨
    (isQuiet (handleTouchInput s r).1.event ∧
      (handleTouchInput s r).2.touch_pressed = s.touch_pressed) := by
  by_cases h1 : r.int_high = true
  · right; right
    simp [handleTouchInput, h1, emptyGesture, isQuiet, isTerminal]
  by_cases h2 : r.available < 6
  · right; right
    simp [handleTouchInput, h1, h2, emptyGesture, isQuiet, isTerminal]
  by_cases h3 : touch_count r = 0
  · by_cases hp : s.touch_pressed = true
    · right; left
      have hrel : isReleaseRead r :=
        ⟨⟨by simpa using h1, Nat.le_of_not_lt h2⟩, h3⟩
      refine ⟨?_, hp, ?_, hrel⟩
      · simp only [handleTouchInput, h1, h2, h3, hp, ↓reduceIte, Bool.false_eq_true]
        split_ifs <;> rfl
      · simp [handleTouchInput, h1, h2, h3, hp]
    · right; right
      simp [handleTouchInput, h1, h2, h3, hp, emptyGesture, isQuiet, isTerminal]
  · by_cases hp : s.touch_pressed = true
    · right; right
      simp only [handleTouchInput, h1, h2, h3, hp, ↓reduceIte, Bool.not_true,
        Bool.false_eq_true]
      by_cases hm : abs (touch_x s.touch_cal r - s.last_touch_x) > 5 ∨
          abs (touch_y s.touch_cal r - s.last_touch_y) > 5
      · simp only [hm, isQuiet, ↓reduceIte]
        refine ⟨?_, trivial⟩
        split_ifs <;> simp [isTerminal]
      · simp [hm, emptyGesture, isQuiet, isTerminal, hp]
    · left
      simp [handleTouchInput, h1, h2, h3, hp]

theorem touchEvents_cons (s : TouchState) (r : TouchRead) (rs : List TouchRead) :
    touchEvents s (r :: rs) =
      (handleTouchInput s r).1.event :: touchEvents (handleTouchInput s r).2 rs := by
  simp [touchEvents, runTouch]

/-- The trace of any sequence of reads is well bracketed from the pressed flag. -/
theorem touchEvents_alternates (rs : List TouchRead) (s : TouchState) :
    alternates s.touch_pressed (touchEvents s rs) := by
  induction rs generalizing s with
  | nil => simp [touchEvents, runTouch, alternates]
  | cons r rs ih =>
    rw [touchEvents_cons]
    have ih1 := ih (handleTouchInput s r).2
    rcases handleTouchInput_flag s r with ⟨h1, h2, h3⟩ | ⟨h1, h2, h3, _⟩ | ⟨⟨h1, h2⟩, h3⟩
    · rw [h3] at ih1
      simp [alternates, h1, h2, ih1]
    · have hne : (handleTouchInput s r).1.event ≠ TOUCH_PRESS := by
        intro h
        rw [h] at h1
        exact absurd h1 (by decide)
      rw [h3] at ih1
      simp [alternates, hne, h1, h2, ih1]
    · rw [h3] at ih1
      simp [alternates, h1, h2, ih1]

theorem alternates_cons (b : Bool) (e : TouchEvent) (es : List TouchEvent) :
    alternates b (e :: es) ↔
      (e = TOUCH_PRESS ∧ b = false ∧ alternates true es) ∨
      (isTerminal e = true ∧ b = true ∧ alternates false es) ∨
      (isQuiet e ∧ alternates b es) := by
  simp only [alternates, isQuiet]
  by_cases h1 : e = TOUCH_PRESS
  · subst h1
    simp [isTerminal]
  · by_cases h2 : isTerminal e = true
    · simp [h1, h2]
    · simp [h1, h2]

/-- After a PRESS inside a well-bracketed trace, the rest is well bracketed
with a press waiting. -/
theorem alternates_after_press (pre l : List TouchEvent) (b : Bool)
    (h : alternates b (pre ++ TOUCH_PRESS :: l)) : alternates true l := by
  induction pre generalizing b with
  | nil =>
    rcases (alternates_cons _ _ _).mp h with ⟨_, _, h⟩ | ⟨h1, _⟩ | ⟨⟨h1, _⟩, _⟩
    · exact h
    · exact absurd h1 (by decide)
    · exact absurd rfl h1
  | cons x pre ih =>
    rcases (alternates_cons _ _ _).mp h with ⟨_, _, h⟩ | ⟨_, _, h⟩ | ⟨_, h⟩ <;> exact ih _ h

/-- Between the current point and the next PRESS of a well-bracketed trace
there is one terminal event if a press is waiting, and none otherwise. -/
theorem alternates_count_until_press (mid post : List TouchEvent) (b : Bool)
    (h : alternates b (mid ++ TOUCH_PRESS :: post)) (hm : TOUCH_PRESS ∉ mid) :
    mid.countP isTerminal = if b = true then 1 else 0 := by
  induction mid generalizing b with
  | nil =>
    rcases (alternates_cons _ _ _).mp h with ⟨_, hb, _⟩ | ⟨h1, _⟩ | ⟨⟨h1, _⟩, _⟩
    · simp [hb]
    · exact absurd h1 (by decide)
    · exact absurd rfl h1
  | cons x mid ih =>
    have hx : x ≠ TOUCH_PRESS := fun e => hm (by simp [e])
    have hm1 : TOUCH_PRESS ∉ mid := fun e => hm (by simp [e])
    rcases (alternates_cons _ _ _).mp h with ⟨h1, _⟩ | ⟨h1, hb, h2⟩ | ⟨⟨_, h1⟩, h2⟩
    · exact absurd h1 hx
    · have := ih _ h2 hm1
      simp [List.countP_cons, h1, hb, this]
    · have := ih _ h2 hm1
      simp [List.countP_cons, h1, this]

/-- In a well-bracketed trace without PRESS there is at most one terminal
event, and none unless a press is waiting. -/
theorem alternates_count_le (mid : List TouchEvent) (b : Bool)
    (h : alternates b mid) (hm : TOUCH_PRESS ∉ mid) :
    mid.countP isTerminal ≤ if b = true then 1 else 0 := by
  induction mid generalizing b with
  | nil => simp
  | cons x mid ih =>
    have hx : x ≠ TOUCH_PRESS := fun e => hm (by simp [e])
    have hm1 : TOUCH_PRESS ∉ mid := fun e => hm (by simp [e])
    rcases (alternates_cons _ _ _).mp h with ⟨h1, _⟩ | ⟨h1, hb, h2⟩ | ⟨⟨_, h1⟩, h2⟩
    · exact absurd h1 hx
    · have := ih _ h2 hm1
      simp only [Bool.false_eq_true, if_false, Nat.le_zero] at this
      simp [List.countP_cons, h1, hb, this]
    · have := ih _ h2 hm1
      simp [List.countP_cons, h1, this]

/-- A terminal event of a well-bracketed trace ends a press: either one was
waiting at the start and only quiet events came before, or a PRESS precedes
it with only quiet events in between. -/
theorem alternates_terminal_after_press (pre post : List TouchEvent) (e : TouchEvent)
    (b : Bool) (h : alternates b (pre ++ e :: post)) (he : isTerminal e = true) :
    (b = true ∧ ∀ x ∈ pre, isQuiet x) ∨
    ∃ p m, pre = p ++ TOUCH_PRESS :: m ∧ ∀ x ∈ m, isQuiet x := by
  induction pre generalizing b with
  | nil =>
    rcases (alternates_cons _ _ _).mp h with ⟨h1, _⟩ | ⟨_, hb, _⟩ | ⟨⟨_, h1⟩, _⟩
    · rw [h1] at he
      exact absurd he (by decide)
    · exact Or.inl ⟨hb, by simp⟩
    · rw [h1] at he
      exact absurd he (by decide)
  | cons x pre ih =>
    rcases (alternates_cons _ _ _).mp h with ⟨h1, _, h2⟩ | ⟨_, _, h2⟩ | ⟨hq, h2⟩
    · rcases ih _ h2 with ⟨_, hall⟩ | ⟨p, m, hpm, hall⟩
      · exact Or.inr ⟨[], pre, by simp [h1], hall⟩
      · exact Or.inr ⟨x :: p, m, by simp [hpm], hall⟩
    · rcases ih _ h2 with ⟨hb, _⟩ | ⟨p, m, hpm, hall⟩
      · exact absurd hb (by decide)
      · exact Or.inr ⟨x :: p, m, by simp [hpm], hall⟩
    · rcases ih _ h2 with ⟨hb, hall⟩ | ⟨p, m, hpm, hall⟩
      · refine Or.inl ⟨hb, ?_⟩
        intro y hy
        rcases List.mem_cons.mp hy with hy | hy
        · rw [hy]; exact hq
        · exact hall y hy
      · exact Or.inr ⟨x :: p, m, by simp [hpm], hall⟩

/-- Without a release read the trace holds at most one PRESS, and none when a
press is already in progress. -/
theorem touchEvents_count_press (rs : List TouchRead) (s : TouchState)
    (h : ∀ r ∈ rs, ¬ isReleaseRead r) :
    (touchEvents s rs).count TOUCH_PRESS ≤ if s.touch_pressed = true then 0 else 1 := by
  induction rs generalizing s with
  | nil => simp [touchEvents, runTouch]
  | cons r rs ih =>
    rw [touchEvents_cons]
    have hr : ¬ isReleaseRead r := h r (by simp)
    have ih1 := ih (handleTouchInput s r).2 (fun x hx => h x (by simp [hx]))
    rcases handleTouchInput_flag s r with ⟨h1, h2, h3⟩ | ⟨_, _, _, h4⟩ | ⟨⟨h1, _⟩, h3⟩
    · rw [h3] at ih1
      simp at ih1
      simp [h1, h2, ih1]
    · exact absurd h4 hr
    · rw [h3] at ih1
      rw [List.count_cons_of_ne (Ne.symm h1)]
      exact ih1

/-- C2. In the event trace of any sequence of reads from the initial state:
between two consecutive PRESS events there is exactly one terminal event
(RELEASE, TAP or LONG_PRESS); after the last PRESS there is at most one;
every terminal event is preceded by a PRESS with no PRESS and no terminal
event in between (its own, unmatched PRESS); and, from any classifier state,
a run of reads without a release read emits at most one PRESS. -/
theorem touch_press_terminal_alternate :
    (∀ rs pre mid post,
      touchEvents initTouchState rs = pre ++ TOUCH_PRESS :: (mid ++ TOUCH_PRESS :: post) →
      TOUCH_PRESS ∉ mid → mid.countP isTerminal = 1) ∧
    (∀ rs pre mid,
      touchEvents initTouchState rs = pre ++ TOUCH_PRESS :: mid →
      TOUCH_PRESS ∉ mid → mid.countP isTerminal ≤ 1) ∧
    (∀ rs pre e post,
      touchEvents initTouchState rs = pre ++ e :: post → isTerminal e = true →
      ∃ p m, pre = p ++ TOUCH_PRESS :: m ∧ ∀ x ∈ m, isQuiet x) ∧
    (∀ s rs, (∀ r ∈ rs, ¬ isReleaseRead r) → (touchEvents s rs).count TOUCH_PRESS ≤ 1) := by
  refine ⟨?_, ?_, ?_, ?_⟩
  · intro rs pre mid post h hm
    have ha := touchEvents_alternates rs initTouchState
    rw [h] at ha
    have := alternates_count_until_press mid post true (alternates_after_press pre _ _ ha) hm
    simpa using this
  · intro rs pre mid h hm
    have ha := touchEvents_alternates rs initTouchState
    rw [h] at ha
    have := alternates_count_le mid true (alternates_after_press pre _ _ ha) hm
    simpa using this
  · intro rs pre e post h he
    have ha := touchEvents_alternates rs initTouchState
    rw [h] at ha
    rcases alternates_terminal_after_press pre post e _ ha he with ⟨hb, _⟩ | hex
    · exact absurd hb (by decide)
    · exact hex
  · intro s rs h
    have := touchEvents_count_press rs s h
    split_ifs at this <;> omega

/-- Witness of C2 on the reads press, move, release, press, release: the trace
is PRESS, MOVE, LONG_PRESS, PRESS, TAP, with exactly one terminal event
between the two PRESS events. -/
theorem touch_press_terminal_alternate_witness :
    touchEvents initTouchState
      [contactAt 1133 949 0, contactAt 1753 949 600, releaseAt 1000,
       contactAt 1133 949 2000, releaseAt 2100] =
      [] ++ TOUCH_PRESS :: ([TOUCH_MOVE, TOUCH_LONG_PRESS] ++ TOUCH_PRESS :: [TOUCH_TAP]) ∧
    TOUCH_PRESS ∉ [TOUCH_MOVE, TOUCH_LONG_PRESS] ∧
    [TOUCH_MOVE, TOUCH_LONG_PRESS].countP isTerminal = 1 :=
  ⟨by decide, by decide,
   touch_press_terminal_alternate.1
     [contactAt 1133 949 0, contactAt 1753 949 600, releaseAt 1000,
      contactAt 1133 949 2000, releaseAt 2100]
     [] [TOUCH_MOVE, TOUCH_LONG_PRESS] [TOUCH_TAP] (by decide) (by decide)⟩

/-! ## Theorems: step detector -/

/-- C5. A call of `detectStep` returns true exactly when, on the state before
the call, `magnitude > step_threshold`, `step_in_progress` is false,
`current_time − last_step > 500` and `last_magnitude < 0.8 × step_threshold`;
when it does, `step_in_progress` becomes true and `last_step` becomes the
clock reading of the call; and after every call `last_magnitude` is the
magnitude of that call. -/
theorem detectStep_fires_iff (thr : ℚ) (s : StepState) (m : ℚ) (t : Nat) :
    ((detectStep thr s m t).1 = true ↔
      m > thr ∧ s.step_in_progress = false ∧ subU32 t s.last_step > 500 ∧
      s.last_magnitude < thr * (8 / 10)) ∧
    ((detectStep thr s m t).1 = true →
      (detectStep thr s m t).2.step_in_progress = true ∧
      (detectStep thr s m t).2.last_step = t % U32) ∧
    (detectStep thr s m t).2.last_magnitude = m := by
  unfold detectStep
  simp only [STEP_TIME_WINDOW]
  by_cases h1 : m > thr ∧ s.step_in_progress = false ∧ subU32 t s.last_step > 500
  · by_cases h2 : s.last_magnitude < thr * (8 / 10)
    · simp only [h1, h2, and_self, if_true]
      simp
    · simp only [h1, h2, if_true, if_false]
      simp
  · simp only [h1, if_false]
    refine ⟨⟨?_, ?_⟩, ?_, trivial⟩
    · intro h
      exact absurd h (by simp)
    · intro h
      exact absurd ⟨h.1, h.2.1, h.2.2.1⟩ h1
    · intro h
      exact absurd h (by simp)

/-- Witness of C5: from the initial state a sample of magnitude 1.3 at t=1000
fires, sets `step_in_progress` and records the clock reading. -/
theorem detectStep_fires_iff_witness :
    (detectStep (12 / 10) initStepState (13 / 10) 1000).1 = true ∧
    (detectStep (12 / 10) initStepState (13 / 10) 1000).2.step_in_progress = true ∧
    (detectStep (12 / 10) initStepState (13 / 10) 1000).2.last_step = 1000 :=
  have h : (detectStep (12 / 10) initStepState (13 / 10) 1000).1 = true :=
    (detectStep_fires_iff (12 / 10) initStepState (13 / 10) 1000).1.mpr
      ⟨by norm_num, rfl, by decide, by norm_num [initStepState]⟩
  ⟨h, ((detectStep_fires_iff (12 / 10) initStepState (13 / 10) 1000).2.1 h).1,
    ((detectStep_fires_iff (12 / 10) initStepState (13 / 10) 1000).2.1 h).2⟩

theorem detectStep_low (thr : ℚ) (s : StepState) (m : ℚ) (t : Nat) (h : ¬ m > thr) :
    detectStep thr s m t = noFire thr s m := by
  unfold detectStep noFire
  rw [if_neg (fun h1 => h h1.1)]

theorem detectStep_busy (thr : ℚ) (s : StepState) (m : ℚ) (t : Nat)
    (h : s.step_in_progress = true) : detectStep thr s m t = noFire thr s m := by
  unfold detectStep noFire
  rw [if_neg (fun h1 => by rw [h] at h1; exact absurd h1.2.1 (by decide))]

theorem detectStep_fire (thr : ℚ) (s : StepState) (m : ℚ) (t : Nat)
    (h1 : m > thr) (h2 : s.step_in_progress = false)
    (h3 : subU32 t s.last_step > STEP_TIME_WINDOW) (h4 : s.last_magnitude < thr * (8 / 10)) :
    detectStep thr s m t =
      (true, { step_in_progress := true, last_step := t % U32, last_magnitude := m }) := by
  unfold detectStep
  rw [if_pos ⟨h1, h2, h3⟩, if_pos h4]

/-- A call that fires found no step in progress and the window elapsed, and
leaves a step in progress. -/
theorem detectStep_true (thr : ℚ) (s : StepState) (m : ℚ) (t : Nat)
    (h : (detectStep thr s m t).1 = true) :
    s.step_in_progress = false ∧ subU32 t s.last_step > STEP_TIME_WINDOW ∧
    (detectStep thr s m t).2.step_in_progress = true := by
  by_cases h1 : m > thr ∧ s.step_in_progress = false ∧
      subU32 t s.last_step > STEP_TIME_WINDOW
  · by_cases h2 : s.last_magnitude < thr * (8 / 10)
    · rw [detectStep_fire thr s m t h1.1 h1.2.1 h1.2.2 h2]
      exact ⟨h1.2.1, h1.2.2, rfl⟩
    · unfold detectStep at h
      rw [if_pos h1, if_neg h2] at h
      exact absurd h (by simp)
  · unfold detectStep at h
    rw [if_neg h1] at h
    exact absurd h (by simp)

theorem stepResults_cons (thr : ℚ) (s : StepState) (x : StepSample) (xs : List StepSample) :
    stepResults thr s (x :: xs) =
      (detectStep thr s x.magnitude x.time).1 ::
        stepResults thr (detectStep thr s x.magnitude x.time).2 xs := by
  simp [stepResults, runSteps]

theorem subU32_of_le {a b : Nat} (ha : a < U32) (hb : b ≤ a) : subU32 a b = a - b := by
  unfold subU32
  have hb1 : b < U32 := Nat.lt_of_le_of_lt hb ha
  rw [Nat.mod_eq_of_lt ha, Nat.mod_eq_of_lt hb1]
  have : a + U32 - b = (a - b) + U32 := by omega
  rw [this, Nat.add_mod_right]
  exact Nat.mod_eq_of_lt (by omega)

/-- The field `last_step` after a call: the clock reading if the call fired,
unchanged otherwise. -/
theorem detectStep_last_step (thr : ℚ) (s : StepState) (m : ℚ) (t : Nat) :
    (detectStep thr s m t).2.last_step =
      if (detectStep thr s m t).1 = true then t % U32 else s.last_step := by
  unfold detectStep
  split_ifs <;> simp_all

/-- With ordered clock readings that are not before `last_step`, every call
that fires comes more than 500 ms after `last_step`. -/
theorem fire_after_last_step (thr : ℚ) (xs : List StepSample) (s : StepState)
    (ho : timesOrdered xs) (hs : ∀ x ∈ xs, s.last_step ≤ x.time)
    (j : Nat) (y : StepSample) (hy : xs[j]? = some y)
    (hf : (stepResults thr s xs)[j]? = some true) : s.last_step + 500 < y.time := by
  induction xs generalizing s j y with
  | nil => simp at hy
  | cons x xs ih =>
    obtain ⟨hp, hb⟩ := ho
    rw [List.pairwise_cons] at hp
    have hxb : x.time < U32 := hb x (by simp)
    have hxs : s.last_step ≤ x.time := hs x (by simp)
    rw [stepResults_cons] at hf
    cases j with
    | zero =>
      simp only [List.getElem?_cons_zero, Option.some.injEq] at hy hf
      rw [← hy]
      have h := (detectStep_true thr s x.magnitude x.time hf).2.1
      simp only [STEP_TIME_WINDOW] at h
      rw [subU32_of_le hxb hxs] at h
      omega
    | succ j =>
      simp only [List.getElem?_cons_succ] at hy hf
      have hls := detectStep_last_step thr s x.magnitude x.time
      have hle : s.last_step ≤ (detectStep thr s x.magnitude x.time).2.last_step ∧
          (detectStep thr s x.magnitude x.time).2.last_step ≤ x.time := by
        clear ih hf
        rw [hls]
        split_ifs
        · rw [Nat.mod_eq_of_lt hxb]
          exact ⟨hxs, le_refl _⟩
        · exact ⟨le_refl _, hxs⟩
      have := ih (detectStep thr s x.magnitude x.time).2
        ⟨hp.2, fun z hz => hb z (by simp [hz])⟩
        (fun z hz => le_trans hle.2 (hp.1 z hz)) j y hy hf
      omega

/-- With ordered clock readings, two calls that both fire are more than
500 ms apart. -/
theorem fires_far_apart (thr : ℚ) (xs : List StepSample) (s : StepState)
    (ho : timesOrdered xs) (i j : Nat) (hij : i < j) (x y : StepSample)
    (hx : xs[i]? = some x) (hy : xs[j]? = some y)
    (hfi : (stepResults thr s xs)[i]? = some true)
    (hfj : (stepResults thr s xs)[j]? = some true) : x.time + 500 < y.time := by
  induction xs generalizing s i j x y with
  | nil => simp at hx
  | cons a xs ih =>
    obtain ⟨hp, hb⟩ := ho
    rw [List.pairwise_cons] at hp
    have hab : a.time < U32 := hb a (by simp)
    have ho1 : timesOrdered xs := ⟨hp.2, fun z hz => hb z (by simp [hz])⟩
    rw [stepResults_cons] at hfi hfj
    cases j with
    | zero => omega
    | succ j =>
      simp only [List.getElem?_cons_succ] at hy hfj
      cases i with
      | zero =>
        simp only [List.getElem?_cons_zero, Option.some.injEq] at hx hfi
        rw [← hx]
        have hls := detectStep_last_step thr s a.magnitude a.time
        rw [if_pos hfi, Nat.mod_eq_of_lt hab] at hls
        have := fire_after_last_step thr xs (detectStep thr s a.magnitude a.time).2 ho1
          (fun z hz => by rw [hls]; exact hp.1 z hz) j y hy hfj
        omega
      | succ i =>
        simp only [List.getElem?_cons_succ] at hx hfi
        exact ih (detectStep thr s a.magnitude a.time).2 ho1 i j (by omega) x y hx hy hfi hfj

theorem debounceSamples_ordered : timesOrdered debounceSamples := by
  constructor
  · simp [debounceSamples]
  · simp [debounceSamples, U32]

theorem shallowSamples_ordered : timesOrdered shallowSamples := by
  constructor
  · simp [shallowSamples]
  · simp [shallowSamples, U32]

/-- C6, counterexample.  Two walks from the initial state with non-decreasing
clock readings.  In `shallowSamples` the only two rising crossings of the
threshold, at t=1100 and t=1300, are 200 ms apart and `detectStep` returns
false on every call (no sample before them is below the valley bound).  In
`debounceSamples` a step fires at t=1000, and the rising crossings at t=1200
and t=1400 both return false.  Either pair of crossings produces no step
event, not exactly one. -/
theorem debounce_counterexample :
    timesOrdered shallowSamples ∧
    isRisingCrossing MIN_STEP_THRESHOLD shallowSamples 0 ∧
    isRisingCrossing MIN_STEP_THRESHOLD shallowSamples 2 ∧
    shallowSamples[1]? = some ⟨13 / 10, 1100⟩ ∧
    shallowSamples[3]? = some ⟨13 / 10, 1300⟩ ∧
    stepResults MIN_STEP_THRESHOLD initStepState shallowSamples =
      [false, false, false, false] ∧
    timesOrdered debounceSamples ∧
    isRisingCrossing MIN_STEP_THRESHOLD debounceSamples 2 ∧
    isRisingCrossing MIN_STEP_THRESHOLD debounceSamples 4 ∧
    debounceSamples[3]? = some ⟨13 / 10, 1200⟩ ∧
    debounceSamples[5]? = some ⟨13 / 10, 1400⟩ ∧
    stepResults MIN_STEP_THRESHOLD initStepState debounceSamples =
      [false, true, false, false, false, false] := by
  refine ⟨shallowSamples_ordered, ?_, ?_, rfl, rfl, ?_,
    debounceSamples_ordered, ?_, ?_, rfl, rfl, ?_⟩
  · exact ⟨⟨10 / 10, 1000⟩, ⟨13 / 10, 1100⟩, rfl, rfl, by norm_num [MIN_STEP_THRESHOLD],
      by norm_num [MIN_STEP_THRESHOLD]⟩
  · exact ⟨⟨10 / 10, 1200⟩, ⟨13 / 10, 1300⟩, rfl, rfl, by norm_num [MIN_STEP_THRESHOLD],
      by norm_num [MIN_STEP_THRESHOLD]⟩
  · norm_num [stepResults, runSteps, shallowSamples, detectStep, initStepState,
      MIN_STEP_THRESHOLD, STEP_TIME_WINDOW, subU32, U32]
  · exact ⟨⟨5 / 10, 1100⟩, ⟨13 / 10, 1200⟩, rfl, rfl, by norm_num [MIN_STEP_THRESHOLD],
      by norm_num [MIN_STEP_THRESHOLD]⟩
  · exact ⟨⟨5 / 10, 1300⟩, ⟨13 / 10, 1400⟩, rfl, rfl, by norm_num [MIN_STEP_THRESHOLD],
      by norm_num [MIN_STEP_THRESHOLD]⟩
  · norm_num [stepResults, runSteps, debounceSamples, detectStep, initStepState,
      MIN_STEP_THRESHOLD, STEP_TIME_WINDOW, subU32, U32]

/-- C6, as amended.  For every sequence of `detectStep` calls with
non-decreasing clock readings (from the initial or any other state), two calls
that return true are more than 500 ms apart; hence of two calls within 500 ms
of each other at most one returns true: never two step events. -/
theorem detectStep_debounce (thr : ℚ) (s : StepState) (xs : List StepSample)
    (ho : timesOrdered xs) (i j : Nat) (hij : i < j) (x y : StepSample)
    (hx : xs[i]? = some x) (hy : xs[j]? = some y) :
    ((stepResults thr s xs)[i]? = some true → (stepResults thr s xs)[j]? = some true →
      x.time + 500 < y.time) ∧
    (y.time ≤ x.time + 500 →
      ¬ ((stepResults thr s xs)[i]? = some true ∧ (stepResults thr s xs)[j]? = some true)) := by
  have h := fires_far_apart thr xs s ho i j hij x y hx hy
  refine ⟨h, ?_⟩
  rintro hle ⟨h1, h2⟩
  have := h h1 h2
  omega

/-- Witness of C6 as amended, on `debounceSamples`: the calls at t=1000 and
t=1200 are within 500 ms, and only the first returns true. -/
theorem detectStep_debounce_witness :
    timesOrdered debounceSamples ∧ 1 < 3 ∧
    debounceSamples[1]? = some ⟨13 / 10, 1000⟩ ∧
    debounceSamples[3]? = some ⟨13 / 10, 1200⟩ ∧
    ¬ ((stepResults MIN_STEP_THRESHOLD initStepState debounceSamples)[1]? = some true ∧
       (stepResults MIN_STEP_THRESHOLD initStepState debounceSamples)[3]? = some true) :=
  ⟨debounceSamples_ordered, by decide, rfl, rfl,
   (detectStep_debounce MIN_STEP_THRESHOLD initStepState debounceSamples
     debounceSamples_ordered 1 3 (by decide) ⟨13 / 10, 1000⟩ ⟨13 / 10, 1200⟩ rfl rfl).2
     (by decide)⟩


theorem subU32_zero (a : Nat) : subU32 a 0 = a % U32 := by
  unfold subU32
  rw [Nat.zero_mod, Nat.sub_zero, Nat.add_mod_right, Nat.mod_mod]

/-- C7, counterexample.  With the first sample at clock value 0 the reference
magnitudes never make `detectStep` return true: the third sample comes at
t=100, not more than 500 ms after the initial `last_step = 0`. -/
theorem reference_sequence_counterexample :
    stepResults MIN_STEP_THRESHOLD initStepState (referenceSamples 0) =
      [false, false, false, false, false, false] := by
  norm_num [stepResults, runSteps, referenceSamples, detectStep, initStepState,
      MIN_STEP_THRESHOLD, STEP_TIME_WINDOW, subU32, U32]

theorem stepResults_step {thr : ℚ} {s s1 : StepState} {m : ℚ} {t : Nat} {b : Bool}
    (xs : List StepSample) (h : detectStep thr s m t = (b, s1)) :
    stepResults thr s (⟨m, t⟩ :: xs) = b :: stepResults thr s1 xs := by
  rw [stepResults_cons, h]

theorem stepStateAfter_step {thr : ℚ} {s s1 : StepState} {m : ℚ} {t : Nat} {b : Bool}
    (xs : List StepSample) (h : detectStep thr s m t = (b, s1)) :
    stepStateAfter thr s (⟨m, t⟩ :: xs) = stepStateAfter thr s1 xs := by
  simp only [stepStateAfter, runSteps, h]

/-- C7, as amended.  From the initial state with threshold 1.2, when the third
sample's clock reading `t0 + 100` (as an `unsigned long`) is more than 500,
the reference magnitudes at 50 ms spacing make `detectStep` return true
exactly once, on the third sample; `step_in_progress` is still true after the
fifth sample, and the sixth sample does not fire. -/
theorem reference_sequence (t0 : Nat) (h : 500 < (t0 + 100) % U32) :
    stepResults MIN_STEP_THRESHOLD initStepState (referenceSamples t0) =
      [false, false, true, false, false, false] ∧
    (stepStateAfter MIN_STEP_THRESHOLD initStepState
      ((referenceSamples t0).take 5)).step_in_progress = true := by
  have h1 : subU32 (t0 + 100) 0 > STEP_TIME_WINDOW := by rw [subU32_zero]; exact h
  have e1 : detectStep (12 / 10) ⟨0, 0, false⟩ (9 / 10) t0 = (false, ⟨9 / 10, 0, false⟩) := by
    rw [detectStep_low _ _ _ _ (by norm_num)]
    norm_num [noFire]
  have e2 : detectStep (12 / 10) ⟨9 / 10, 0, false⟩ (9 / 10) (t0 + 50) =
      (false, ⟨9 / 10, 0, false⟩) := by
    rw [detectStep_low _ _ _ _ (by norm_num)]
    norm_num [noFire]
  have e3 : detectStep (12 / 10) ⟨9 / 10, 0, false⟩ (13 / 10) (t0 + 100) =
      (true, ⟨13 / 10, (t0 + 100) % U32, true⟩) := by
    exact detectStep_fire (12 / 10) ⟨9 / 10, 0, false⟩ (13 / 10) (t0 + 100) (by norm_num) rfl h1
      (by norm_num)
  have e4 : detectStep (12 / 10) ⟨13 / 10, (t0 + 100) % U32, true⟩ (13 / 10) (t0 + 150) =
      (false, ⟨13 / 10, (t0 + 100) % U32, true⟩) := by
    rw [detectStep_busy _ _ _ _ rfl]
    norm_num [noFire]
  have e5 : detectStep (12 / 10) ⟨13 / 10, (t0 + 100) % U32, true⟩ (9 / 10) (t0 + 200) =
      (false, ⟨9 / 10, (t0 + 100) % U32, true⟩) := by
    rw [detectStep_busy _ _ _ _ rfl]
    norm_num [noFire]
  have e6 : detectStep (12 / 10) ⟨9 / 10, (t0 + 100) % U32, true⟩ (13 / 10) (t0 + 250) =
      (false, ⟨13 / 10, (t0 + 100) % U32, true⟩) := by
    rw [detectStep_busy _ _ _ _ rfl]
    norm_num [noFire]
  constructor
  · unfold referenceSamples MIN_STEP_THRESHOLD initStepState
    rw [stepResults_step _ e1, stepResults_step _ e2, stepResults_step _ e3,
      stepResults_step _ e4, stepResults_step _ e5, stepResults_step _ e6]
    rfl
  · unfold referenceSamples MIN_STEP_THRESHOLD initStepState
    rw [List.take, List.take, List.take, List.take, List.take, List.take,
      stepStateAfter_step _ e1, stepStateAfter_step _ e2, stepStateAfter_step _ e3,
      stepStateAfter_step _ e4, stepStateAfter_step _ e5]
    rfl

/-- Witness of C7 as amended, with the first sample at t=1000. -/
theorem reference_sequence_witness :
    500 < (1000 + 100) % U32 ∧
    stepResults MIN_STEP_THRESHOLD initStepState (referenceSamples 1000) =
      [false, false, true, false, false, false] :=
  ⟨by decide, (reference_sequence 1000 (by decide)).1⟩

/-- While a step is in progress no call fires before a call whose magnitude is
below `0.7 × step_threshold`. -/
theorem fire_needs_rearm (thr : ℚ) (xs : List StepSample) (s : StepState)
    (hs : s.step_in_progress = true) (j : Nat)
    (hf : (stepResults thr s xs)[j]? = some true) :
    ∃ k z, k < j ∧ xs[k]? = some z ∧ z.magnitude < thr * (7 / 10) := by
  induction xs generalizing s j with
  | nil => simp [stepResults, runSteps] at hf
  | cons x xs ih =>
    rw [stepResults_cons, detectStep_busy thr s _ _ hs] at hf
    cases j with
    | zero => simp [noFire] at hf
    | succ j =>
      simp only [List.getElem?_cons_succ] at hf
      by_cases hm : x.magnitude < thr * (7 / 10)
      · exact ⟨0, x, by omega, by simp, hm⟩
      · have hs1 : (noFire thr s x.magnitude).2.step_in_progress = true := by
          simp [noFire, hm, hs]
        obtain ⟨k, z, hk, hz, hlt⟩ := ih _ hs1 j hf
        exact ⟨k + 1, z, by omega, by simpa using hz, hlt⟩

/-- C8. In `detectStep`, `step_in_progress` goes from true to false only on a
call whose magnitude is below `0.7 × step_threshold`; and between any two
calls that return true there is a call, strictly between them, whose magnitude
is below `0.7 × step_threshold`. -/
theorem detectStep_rearm (thr : ℚ) :
    (∀ (s : StepState) (m : ℚ) (t : Nat), s.step_in_progress = true →
      (detectStep thr s m t).2.step_in_progress = false → m < thr * (7 / 10)) ∧
    (∀ (s : StepState) (xs : List StepSample) (i j : Nat), i < j →
      (stepResults thr s xs)[i]? = some true → (stepResults thr s xs)[j]? = some true →
      ∃ k z, i < k ∧ k < j ∧ xs[k]? = some z ∧ z.magnitude < thr * (7 / 10)) := by
  constructor
  · intro s m t hs h
    rw [detectStep_busy thr s m t hs] at h
    by_contra hm
    simp [noFire, hm, hs] at h
  · intro s xs
    induction xs generalizing s with
    | nil =>
      intro i j _ hfi
      simp [stepResults, runSteps] at hfi
    | cons x xs ih =>
      intro i j hij hfi hfj
      rw [stepResults_cons] at hfi hfj
      cases j with
      | zero => omega
      | succ j =>
        simp only [List.getElem?_cons_succ] at hfj
        cases i with
        | zero =>
          simp only [List.getElem?_cons_zero, Option.some.injEq] at hfi
          have hs1 := (detectStep_true thr s x.magnitude x.time hfi).2.2
          obtain ⟨k, z, hk, hz, hlt⟩ := fire_needs_rearm thr xs _ hs1 j hfj
          exact ⟨k + 1, z, by omega, by omega, by simpa using hz, hlt⟩
        | succ i =>
          simp only [List.getElem?_cons_succ] at hfi
          obtain ⟨k, z, hk1, hk2, hz, hlt⟩ := ih _ i j (by omega) hfi hfj
          exact ⟨k + 1, z, by omega, by omega, by simpa using hz, hlt⟩

/-- Witness of C8: from a state with a step in progress, a sample of magnitude
0.5 clears the flag, and 0.5 is below 0.7 × 1.2. -/
theorem detectStep_rearm_witness :
    (detectStep (12 / 10) ⟨13 / 10, 1000, true⟩ (5 / 10) 1100).2.step_in_progress = false ∧
    (5 / 10 : ℚ) < 12 / 10 * (7 / 10) :=
  have h : (detectStep (12 / 10) ⟨13 / 10, 1000, true⟩ (5 / 10) 1100).2.step_in_progress
      = false := by
    rw [detectStep_busy _ _ _ _ rfl]
    norm_num [noFire]
  ⟨h, (detectStep_rearm (12 / 10)).1 ⟨13 / 10, 1000, true⟩ (5 / 10) 1100 rfl h⟩

/-! ## Theorems: registry and navigation -/

/-- The scan of `launchApp` touches only `current_app_index` and the record of
invoked functions. -/
theorem launchScan_nav (app : AppType) (apps : List WatchApp) (i : Nat) (s : NavState) :
    (launchScan app apps i s).current_app = s.current_app ∧
    (launchScan app apps i s).current_screen = s.current_screen ∧
    (launchScan app apps i s).current_ui_screen = s.current_ui_screen := by
  induction apps generalizing i with
  | nil => simp [launchScan]
  | cons a rest ih =>
    unfold launchScan
    split_ifs
    · cases h : a.init_func <;> simp [invoke]
    · exact ih (i + 1)

/-- When the table has an entry of the requested type, the scan leaves
`current_app_index` at an entry of that type. -/
theorem launchScan_index (app : AppType) (apps : List WatchApp) (i : Nat) (s : NavState)
    (h : ∃ a ∈ apps, a.type = app) :
    ∃ k a, (launchScan app apps i s).current_app_index = i + k ∧ apps[k]? = some a ∧
      a.type = app := by
  induction apps generalizing i with
  | nil => simp at h
  | cons b rest ih =>
    unfold launchScan
    by_cases hb : b.type = app
    · rw [if_pos hb]
      refine ⟨0, b, ?_, by simp, hb⟩
      cases b.init_func <;> simp [invoke]
    · rw [if_neg hb]
      obtain ⟨a, ha, hta⟩ := h
      have ha1 : a ∈ rest := by
        rcases List.mem_cons.mp ha with e | e
        · rw [e] at hta
          exact absurd hta hb
        · exact e
      obtain ⟨k, c, hk, hc, htc⟩ := ih (i + 1) ⟨a, ha1, hta⟩
      exact ⟨k + 1, c, by omega, by simpa using hc, htc⟩

/-- The scan of `launchApp` over a table without the id changes nothing. -/
theorem launchScan_unknown (app : AppType) (apps : List WatchApp) (i : Nat) (s : NavState)
    (h : ∀ a ∈ apps, a.type ≠ app) : launchScan app apps i s = s := by
  induction apps generalizing i with
  | nil => rfl
  | cons a rest ih =>
    unfold launchScan
    rw [if_neg (h a (by simp))]
    exact ih (i + 1) (fun b hb => h b (by simp [hb]))

/-- The shipped table has an entry for every value of `AppType`. -/
theorem registered_apps_complete (app : AppType) : isRegistered registered_apps app := by
  cases app <;> decide

/-- C9, counterexample.  APP_MUSIC is registered, and after
`launchApp(APP_MUSIC)` from the watch face the current screen is
SCREEN_APP_GRID: not SCREEN_MUSIC, the screen on which the Music entry's
draw function is drawn, but the grid screen, drawn by `drawAppGrid`. -/
theorem launchApp_screen_counterexample :
    isRegistered registered_apps APP_MUSIC ∧
    (launchApp registered_apps homeNavState APP_MUSIC).current_screen = SCREEN_APP_GRID ∧
    (launchApp registered_apps homeNavState APP_MUSIC).current_screen ≠ SCREEN_MUSIC ∧
    (∀ a ∈ registered_apps, a.type = APP_MUSIC →
      a.draw_func = some (drawCurrentScreen SCREEN_MUSIC) ∧
      a.draw_func ≠ some (drawCurrentScreen
        (launchApp registered_apps homeNavState APP_MUSIC).current_screen)) := by
  decide

/-- C9, as amended.  For every app id present in the registry table, after
`launchApp(id)` the current app is `id` and the current screen is
SCREEN_APP_GRID, whichever app was launched (the descriptor declares no
screen); `current_ui_screen` is not touched, and `current_app_index` is the
index of an entry of that id. -/
theorem launchApp_registered (apps : List WatchApp) (s : NavState) (app : AppType)
    (h : isRegistered apps app) :
    (launchApp apps s app).current_app = app ∧
    (launchApp apps s app).current_screen = SCREEN_APP_GRID ∧
    (launchApp apps s app).current_ui_screen = s.current_ui_screen ∧
    ∃ a, apps[(launchApp apps s app).current_app_index]? = some a ∧ a.type = app := by
  unfold launchApp
  have h1 := launchScan_nav app apps 0
    { s with current_app := app, current_screen := SCREEN_APP_GRID }
  obtain ⟨k, a, hk, ha, hta⟩ := launchScan_index app apps 0
    { s with current_app := app, current_screen := SCREEN_APP_GRID } h
  refine ⟨h1.1, h1.2.1, h1.2.2, a, ?_, hta⟩
  rw [hk, Nat.zero_add]
  exact ha

/-- Witness of C9 as amended: launching the registered APP_MUSIC. -/
theorem launchApp_registered_witness :
    isRegistered registered_apps APP_MUSIC ∧
    (launchApp registered_apps homeNavState APP_MUSIC).current_app = APP_MUSIC ∧
    (launchApp registered_apps homeNavState APP_MUSIC).current_screen = SCREEN_APP_GRID :=
  ⟨by decide,
   (launchApp_registered registered_apps homeNavState APP_MUSIC (by decide)).1,
   (launchApp_registered registered_apps homeNavState APP_MUSIC (by decide)).2.1⟩

/-- The path of `launchApp` on which the scan finds no entry: over a table with
no entry of the requested type, the current app becomes the requested id and
the current screen SCREEN_APP_GRID, while `current_app_index` and the invoked
functions stay as they were.  Every app id has an entry in the shipped table,
so the program never takes this path. -/
theorem launchApp_unknown (apps : List WatchApp) (s : NavState) (app : AppType)
    (h : ¬ isRegistered apps app) :
    launchApp apps s app = { s with current_app := app, current_screen := SCREEN_APP_GRID } ∧
    (launchApp apps s app).current_app_index = s.current_app_index ∧
    (launchApp apps s app).calls = s.calls ∧
    ∀ a : AppType, isRegistered registered_apps a := by
  have hne : ∀ a ∈ apps, a.type ≠ app := fun a ha e => h ⟨a, ha, e⟩
  have := launchScan_unknown app apps 0
    { s with current_app := app, current_screen := SCREEN_APP_GRID } hne
  unfold launchApp
  rw [this]
  exact ⟨rfl, rfl, rfl, registered_apps_complete⟩

/-! ## Theorems: exit, capability invocations, reachable states -/

/-- No entry of the shipped table declares a cleanup capability. -/
theorem registered_apps_no_cleanup (a : WatchApp) (h : a ∈ registered_apps) :
    a.cleanup_func = none := by
  revert a
  decide

theorem findApp_mem (apps : List WatchApp) (app : AppType) (a : WatchApp)
    (h : findApp apps app = some a) : a ∈ apps ∧ a.type = app := by
  unfold findApp at h
  exact ⟨List.mem_of_find?_eq_some h, by simpa using List.find?_some h⟩

theorem findApp_isSome (apps : List WatchApp) (app : AppType) (h : isRegistered apps app) :
    ∃ a, findApp apps app = some a := by
  obtain ⟨b, hb, hbt⟩ := h
  have : (findApp apps app).isSome = true := by
    unfold findApp
    rw [List.find?_isSome]
    exact ⟨b, hb, by simpa using hbt⟩
  exact Option.isSome_iff_exists.mp this

/-- What `exitCurrentApp` does, in terms of the entry at `current_app_index`. -/
theorem exitCurrentApp_eq (apps : List WatchApp) (s : NavState) (a : WatchApp)
    (h : apps[s.current_app_index]? = some a) :
    exitCurrentApp apps s =
      { s with calls := s.calls ++ a.cleanup_func.toList
               current_screen := SCREEN_WATCHFACE, current_app := APP_WATCHFACE } := by
  unfold exitCurrentApp
  rw [h]
  cases hc : a.cleanup_func <;> simp [invoke, hc]

/-- What `exitCurrentApp` invokes.  Over the shipped table, from every state
with the index inside the table, it invokes nothing (no entry declares a
cleanup) and returns to the watch face.  Over any table, in a state whose
`current_app_index` holds the entry of the current app, it invokes the cleanup
of that app if declared; `exitCurrentApp` itself leaves the index at the entry
of the app it exits, so this condition fails after it. -/
theorem exitCurrentApp_cleanup :
    (∀ s : NavState, s.current_app_index < num_registered_apps →
      (exitCurrentApp registered_apps s).calls =
        s.calls ++ (cleanupOf registered_apps s.current_app).toList ∧
      (exitCurrentApp registered_apps s).calls = s.calls ∧
      (exitCurrentApp registered_apps s).current_screen = SCREEN_WATCHFACE ∧
      (exitCurrentApp registered_apps s).current_app = APP_WATCHFACE) ∧
    (∀ (apps : List WatchApp) (s : NavState) (a : WatchApp),
      apps[s.current_app_index]? = some a → findApp apps s.current_app = some a →
      (exitCurrentApp apps s).calls = s.calls ++ (cleanupOf apps s.current_app).toList ∧
      (exitCurrentApp apps s).current_screen = SCREEN_WATCHFACE ∧
      (exitCurrentApp apps s).current_app = APP_WATCHFACE) := by
  constructor
  · intro s hs
    obtain ⟨a, ha⟩ : ∃ a, registered_apps[s.current_app_index]? = some a := by
      have hlt : s.current_app_index < registered_apps.length := hs
      exact ⟨registered_apps[s.current_app_index], List.getElem?_eq_getElem hlt⟩
    have hmem : a ∈ registered_apps := List.getElem?_mem ha
    have hnone : cleanupOf registered_apps s.current_app = none := by
      unfold cleanupOf
      cases hf : findApp registered_apps s.current_app with
      | none => rfl
      | some b => exact registered_apps_no_cleanup b (findApp_mem _ _ _ hf).1
    rw [exitCurrentApp_eq registered_apps s a ha, registered_apps_no_cleanup a hmem, hnone]
    simp
  · intro apps s a ha hf
    rw [exitCurrentApp_eq apps s a ha]
    simp [cleanupOf, hf]

/-- The functions invoked by the scan of `launchApp`: the init capability of
the first entry of the requested type, if that entry exists and declares one. -/
theorem launchScan_calls (app : AppType) (apps : List WatchApp) (i : Nat) (s : NavState) :
    (launchScan app apps i s).calls = s.calls ++ (initOf apps app).toList := by
  induction apps generalizing i with
  | nil => simp [launchScan, initOf, findApp]
  | cons a rest ih =>
    unfold launchScan
    by_cases h : a.type = app
    · rw [if_pos h]
      have : initOf (a :: rest) app = a.init_func := by
        simp [initOf, findApp, List.find?_cons, h]
      rw [this]
      cases hi : a.init_func <;> simp [invoke]
    · rw [if_neg h]
      have : initOf (a :: rest) app = initOf rest app := by
        simp [initOf, findApp, List.find?_cons, h]
      rw [this]
      exact ih (i + 1)

theorem launchApp_calls (apps : List WatchApp) (s : NavState) (app : AppType) :
    (launchApp apps s app).calls = s.calls ++ (initOf apps app).toList := by
  unfold launchApp
  rw [launchScan_calls]

/-- C12. For a registered app id, one call `launchApp(id)` invokes exactly the
init capability of that app's entry, once, if it is present, and nothing if
it is absent; nothing else is invoked, so no cleanup capability of the
previously active app or of any other app (and the shipped table declares
none).  Launching the same app twice invokes its init twice. -/
theorem launchApp_invokes_init (apps : List WatchApp) (s : NavState) (app : AppType)
    (h : isRegistered apps app) :
    (∃ a, findApp apps app = some a ∧ a ∈ apps ∧ a.type = app ∧
      (launchApp apps s app).calls = s.calls ++ a.init_func.toList ∧
      (a.init_func = none → (launchApp apps s app).calls = s.calls) ∧
      (∀ f, a.init_func = some f → (launchApp apps s app).calls = s.calls ++ [f]) ∧
      (launchApp apps (launchApp apps s app) app).calls =
        s.calls ++ a.init_func.toList ++ a.init_func.toList) ∧
    (∀ b ∈ registered_apps, b.cleanup_func = none) := by
  obtain ⟨a, ha⟩ := findApp_isSome apps app h
  have hm := findApp_mem apps app a ha
  have hi : initOf apps app = a.init_func := by simp [initOf, ha]
  refine ⟨⟨a, ha, hm.1, hm.2, ?_, ?_, ?_, ?_⟩, registered_apps_no_cleanup⟩
  · rw [launchApp_calls, hi]
  · intro hn
    rw [launchApp_calls, hi, hn]
    simp
  · intro f hf
    rw [launchApp_calls, hi, hf]
    rfl
  · rw [launchApp_calls, launchApp_calls, hi]

/-- Witness of C12: launching the registered APP_MUSIC from the watch face
invokes `initMusicApp`, and launching it again invokes it again. -/
theorem launchApp_invokes_init_witness :
    isRegistered registered_apps APP_MUSIC ∧
    (launchApp registered_apps homeNavState APP_MUSIC).calls = [.initMusicApp] ∧
    (launchApp registered_apps (launchApp registered_apps homeNavState APP_MUSIC)
      APP_MUSIC).calls = [.initMusicApp, .initMusicApp] ∧
    ∃ a, findApp registered_apps APP_MUSIC = some a ∧ a ∈ registered_apps ∧
      a.type = APP_MUSIC ∧
      (launchApp registered_apps homeNavState APP_MUSIC).calls =
        homeNavState.calls ++ a.init_func.toList ∧
      (a.init_func = none →
        (launchApp registered_apps homeNavState APP_MUSIC).calls = homeNavState.calls) ∧
      (∀ f, a.init_func = some f →
        (launchApp registered_apps homeNavState APP_MUSIC).calls = homeNavState.calls ++ [f]) ∧
      (launchApp registered_apps (launchApp registered_apps homeNavState APP_MUSIC)
        APP_MUSIC).calls = homeNavState.calls ++ a.init_func.toList ++ a.init_func.toList :=
  ⟨by decide, by decide, by decide,
   (launchApp_invokes_init registered_apps homeNavState APP_MUSIC (by decide)).1⟩

/-- The current app after one operation: the launched id, APP_WATCHFACE after
an exit, or unchanged. -/
theorem navStep_current_app (apps : List WatchApp) (s : NavState) (op : NavOp) :
    (navStep apps s op).current_app = s.current_app ∨
    (navStep apps s op).current_app = APP_WATCHFACE ∧ op = .exitCurrentApp ∨
    (∃ app, (op = .launchApp app ∨ op = .switchToApp app) ∧
      (navStep apps s op).current_app = app) ∨
    (∃ g app, (op = .handleAppGridTouch g ∨ op = .handleUITouch g) ∧
      gridLaunch apps g = some app ∧ (navStep apps s op).current_app = app) := by
  cases op with
  | initializeApps =>
    left
    simp only [navStep, initializeApps]
    induction apps generalizing s with
    | nil => rfl
    | cons a rest ih =>
      rw [List.foldl_cons, ih]
      cases a.init_func <;> rfl
  | launchApp app =>
    right; right; left
    exact ⟨app, Or.inl rfl, (launchScan_nav app apps 0 _).1⟩
  | exitCurrentApp =>
    right; left
    exact ⟨rfl, rfl⟩
  | handleAppGridTouch g =>
    simp only [navStep, handleAppGridTouch]
    cases hg : gridLaunch apps g with
    | none => exact Or.inl rfl
    | some app =>
      right; right; right
      exact ⟨g, app, Or.inl rfl, hg, (launchScan_nav app apps 0 _).1⟩
  | switchToApp app =>
    right; right; left
    exact ⟨app, Or.inr rfl, (launchScan_nav app apps 0 _).1⟩
  | initializeUI => exact Or.inl rfl
  | setCurrentScreen screen => exact Or.inl rfl
  | drawCurrentScreen => exact Or.inl rfl
  | handleUITouch g =>
    simp only [navStep, handleUITouch]
    cases hs : s.current_ui_screen <;> try exact Or.inl rfl
    show (handleAppGridTouch apps s g).current_app = s.current_app ∨ _
    simp only [handleAppGridTouch]
    cases hg : gridLaunch apps g with
    | none => exact Or.inl rfl
    | some app =>
      right; right; right
      exact ⟨g, app, Or.inr rfl, hg, (launchScan_nav app apps 0 _).1⟩
  | animateScreenTransition src dst => exact Or.inl rfl

/-- The app that the grid loop launches is the type of an entry of the table. -/
theorem gridScan_registered (g : TouchGesture) (l : List WatchApp) (i : Nat) (app : AppType)
    (h : gridScan g l i = some app) : ∃ a ∈ l, a.type = app := by
  induction l generalizing i with
  | nil => simp [gridScan] at h
  | cons a rest ih =>
    unfold gridScan at h
    split_ifs at h with h1 h2
    · exact ⟨a, by simp, by simpa using h⟩
    · obtain ⟨b, hb, hbt⟩ := ih (i + 1) h
      exact ⟨b, by simp [hb], hbt⟩

theorem gridLaunch_registered (apps : List WatchApp) (g : TouchGesture) (app : AppType)
    (h : gridLaunch apps g = some app) : isRegistered apps app := by
  unfold gridLaunch at h
  split_ifs at h
  exact gridScan_registered g apps 0 app h

/-- One operation keeps the current app registered, when the table has a
watch-face entry and `launchApp`/`switchToApp` get a registered id. -/
theorem navStep_registered (apps : List WatchApp) (s : NavState) (op : NavOp)
    (hw : isRegistered apps APP_WATCHFACE) (hs : isRegistered apps s.current_app)
    (hop : launchesRegistered apps op) :
    isRegistered apps (navStep apps s op).current_app := by
  rcases navStep_current_app apps s op with h | ⟨h, _⟩ | ⟨app, ho, h⟩ | ⟨g, app, _, hg, h⟩
  · rw [h]; exact hs
  · rw [h]; exact hw
  · rw [h]
    rcases ho with ho | ho <;> (rw [ho] at hop; exact hop)
  · rw [h]
    exact gridLaunch_registered apps g app hg

/-- C13. Over the shipped table, from any start state and through any
sequence of operations (in particular `launchApp`, `switchToApp`,
`exitCurrentApp` and `handleAppGridTouch` calls with any arguments), the
current app is the type of some entry of `registered_apps`.  Over any table
that has a watch-face entry the same holds from a registered start, as long
as `launchApp` and `switchToApp` are given registered ids. -/
theorem nav_never_dangles :
    (∀ (s0 : NavState) (ops : List NavOp),
      isRegistered registered_apps (runNav registered_apps s0 ops).current_app) ∧
    (∀ (apps : List WatchApp) (s0 : NavState) (ops : List NavOp),
      isRegistered apps APP_WATCHFACE → isRegistered apps s0.current_app →
      (∀ op ∈ ops, launchesRegistered apps op) →
      isRegistered apps (runNav apps s0 ops).current_app) := by
  have gen : ∀ (apps : List WatchApp) (ops : List NavOp) (s0 : NavState),
      isRegistered apps APP_WATCHFACE → isRegistered apps s0.current_app →
      (∀ op ∈ ops, launchesRegistered apps op) →
      isRegistered apps (runNav apps s0 ops).current_app := by
    intro apps ops
    induction ops with
    | nil => intro s0 _ hs _; exact hs
    | cons op ops ih =>
      intro s0 hw hs hops
      have h1 := navStep_registered apps s0 op hw hs (hops op (by simp))
      exact ih (navStep apps s0 op) hw h1 (fun o ho => hops o (by simp [ho]))
  constructor
  · intro s0 ops
    refine gen registered_apps ops s0 (registered_apps_complete _) (registered_apps_complete _) ?_
    intro op _
    cases op <;> simp [launchesRegistered, registered_apps_complete]
  · intro apps s0 ops
    exact gen apps ops s0

/-- Witness of C13: launch Music, exit, tap the grid cell of Settings, over the
table without the Weather entry and over the shipped table. -/
theorem nav_never_dangles_witness :
    isRegistered appsWithoutWeather APP_WATCHFACE ∧
    isRegistered appsWithoutWeather homeNavState.current_app ∧
    (runNav registered_apps homeNavState
      [.launchApp APP_MUSIC, .exitCurrentApp, .handleAppGridTouch (tapAt 180 300)]).current_app
      = APP_SETTINGS ∧
    isRegistered appsWithoutWeather (runNav appsWithoutWeather homeNavState
      [.launchApp APP_MUSIC, .exitCurrentApp, .handleAppGridTouch (tapAt 180 300)]).current_app :=
  ⟨by decide, by decide, by decide,
   nav_never_dangles.2 appsWithoutWeather homeNavState
     [.launchApp APP_MUSIC, .exitCurrentApp, .handleAppGridTouch (tapAt 180 300)]
     (by decide) (by decide) (by decide)⟩

/-! ## Theorems: grid hit test -/

theorem start_x_eq : start_x = 74 := by decide

/-- The hit test of the loop is the cell of the index: column `i mod 3`, row
`i div 3`, origin `(74 + 80·col, 80 + 100·row)`, size 60, bounds inclusive. -/
theorem gridHit_iff_inCell (i : Nat) (g : TouchGesture) : gridHit i g ↔ inCell i g.x g.y := by
  unfold gridHit inCell
  rw [start_x_eq]
  simp only [apps_per_row, app_size, spacing, start_y]
  constructor <;> intro h <;> omega

/-- Two cells with a common point are the same cell. -/
theorem inCell_disjoint (i j : Nat) (x y : Int) (hi : inCell i x y) (hj : inCell j x y) :
    i = j := by
  unfold inCell at hi hj
  omega

/-- A launch made by the loop comes from an entry whose cell is hit. -/
theorem gridScan_some (g : TouchGesture) (l : List WatchApp) (i : Nat) (app : AppType)
    (h : gridScan g l i = some app) :
    ∃ k a, l[k]? = some a ∧ i + k < 9 ∧ gridHit (i + k) g ∧ app = a.type := by
  induction l generalizing i with
  | nil => simp [gridScan] at h
  | cons a rest ih =>
    unfold gridScan at h
    split_ifs at h with h1 h2
    · exact ⟨0, a, by simp, by omega, h2, by simpa using h.symm⟩
    · obtain ⟨k, b, hb, hk, hh, hbt⟩ := ih (i + 1) h
      refine ⟨k + 1, b, by simpa using hb, by omega, ?_, hbt⟩
      have : i + (k + 1) = i + 1 + k := by omega
      rw [this]
      exact hh

/-- The loop makes a launch whenever the cell of one of the first nine
entries is hit. -/
theorem gridScan_hit (g : TouchGesture) (l : List WatchApp) (i k : Nat) (a : WatchApp)
    (ha : l[k]? = some a) (hk : i + k < 9) (hh : gridHit (i + k) g) :
    ∃ app, gridScan g l i = some app := by
  induction l generalizing i k with
  | nil => simp at ha
  | cons b rest ih =>
    unfold gridScan
    have hi : i < 9 := by omega
    rw [if_pos hi]
    by_cases h2 : gridHit i g
    · exact ⟨b.type, by rw [if_pos h2]⟩
    · rw [if_neg h2]
      cases k with
      | zero => exact absurd hh h2
      | succ k =>
        have e : i + (k + 1) = i + 1 + k := by omega
        rw [e] at hk hh
        exact ih (i + 1) k (by simpa using ha) hk hh

/-- C14. `handleAppGridTouch` calls `launchApp` if and only if the gesture is a
TOUCH_TAP whose `(x, y)` lies in the cell of some index
`i < min(num_registered_apps, 9)`, the cell of `i` having column `i mod 3`,
row `i div 3`, origin `(74 + 80·col, 80 + 100·row)` and size 60, bounds
inclusive; two cells never share a point, so the app launched is that of the
one entry whose cell is hit; any other gesture, and a tap outside every cell,
changes nothing. -/
theorem handleAppGridTouch_hit_test (apps : List WatchApp) (s : NavState) (g : TouchGesture) :
    ((gridLaunch apps g).isSome = true ↔
      g.event = TOUCH_TAP ∧ ∃ i, i < min apps.length 9 ∧ inCell i g.x g.y) ∧
    (∀ (i j : Nat) (x y : Int), inCell i x y → inCell j x y → i = j) ∧
    (∀ (i : Nat) (a : WatchApp), g.event = TOUCH_TAP → i < 9 → apps[i]? = some a →
      inCell i g.x g.y →
      gridLaunch apps g = some a.type ∧ handleAppGridTouch apps s g = launchApp apps s a.type) ∧
    (¬ (g.event = TOUCH_TAP ∧ ∃ i, i < min apps.length 9 ∧ inCell i g.x g.y) →
      gridLaunch apps g = none ∧ handleAppGridTouch apps s g = s) := by
  have key : ∀ (i : Nat) (a : WatchApp), g.event = TOUCH_TAP → i < 9 → apps[i]? = some a →
      inCell i g.x g.y → gridLaunch apps g = some a.type := by
    intro i a ht hi ha hc
    have hh : gridHit (0 + i) g := by
      rw [Nat.zero_add]; exact (gridHit_iff_inCell i g).mpr hc
    obtain ⟨app, happ⟩ := gridScan_hit g apps 0 i a ha (by omega) hh
    obtain ⟨k, b, hb, _, hkh, hbt⟩ := gridScan_some g apps 0 app happ
    rw [Nat.zero_add] at hkh
    have hki : k = i := inCell_disjoint k i g.x g.y ((gridHit_iff_inCell k g).mp hkh) hc
    rw [hki, ha] at hb
    have hab : a = b := by simpa using hb
    unfold gridLaunch
    rw [if_neg (by simp [ht]), happ, hbt, hab]
  have iff1 : (gridLaunch apps g).isSome = true ↔
      g.event = TOUCH_TAP ∧ ∃ i, i < min apps.length 9 ∧ inCell i g.x g.y := by
    constructor
    · intro h
      obtain ⟨app, happ⟩ := Option.isSome_iff_exists.mp h
      unfold gridLaunch at happ
      split_ifs at happ with ht
      have ht1 : g.event = TOUCH_TAP := by simpa using ht
      obtain ⟨k, a, ha, hk, hh, _⟩ := gridScan_some g apps 0 app happ
      rw [Nat.zero_add] at hk hh
      have hlen : k < apps.length := by
        by_contra hc
        rw [List.getElem?_eq_none (by omega)] at ha
        exact absurd ha (by simp)
      exact ⟨ht1, k, by simp [hlen, hk], (gridHit_iff_inCell k g).mp hh⟩
    · rintro ⟨ht, i, hi, hc⟩
      have hi1 : i < apps.length ∧ i < 9 := by simpa using hi
      have ha : apps[i]? = some apps[i] := List.getElem?_eq_getElem hi1.1
      rw [key i _ ht hi1.2 ha hc]
      rfl
  refine ⟨iff1, inCell_disjoint, ?_, ?_⟩
  · intro i a ht hi ha hc
    have h := key i a ht hi ha hc
    refine ⟨h, ?_⟩
    unfold handleAppGridTouch
    rw [h]
  · intro hn
    have h : gridLaunch apps g = none := by
      cases hg : gridLaunch apps g with
      | none => rfl
      | some app =>
        exact absurd (iff1.mp (by rw [hg]; rfl)) hn
    refine ⟨h, ?_⟩
    unfold handleAppGridTouch
    rw [h]

/-- Witness of C14: a tap at (180, 300) lies in the cell of index 7 (column 1,
row 2) and launches the eighth registered app, Settings; a tap at (140, 300),
between two cells, launches nothing. -/
theorem handleAppGridTouch_hit_test_witness :
    inCell 7 180 300 ∧
    handleAppGridTouch registered_apps homeNavState (tapAt 180 300) =
      launchApp registered_apps homeNavState APP_SETTINGS ∧
    handleAppGridTouch registered_apps homeNavState (tapAt 140 300) = homeNavState :=
  ⟨by decide,
   ((handleAppGridTouch_hit_test registered_apps homeNavState (tapAt 180 300)).2.2.1 7
      ⟨APP_SETTINGS, "Settings", "", 0x8010, true,
        some .initSettingsApp, some .drawSettingsApp, some .handleSettingsTouch, none⟩
      rfl (by decide) (by decide) (by decide)).2,
   ((handleAppGridTouch_hit_test registered_apps homeNavState (tapAt 140 300)).2.2.2
      (by decide)).2⟩

/-! ## Theorems: missing polls, validity flag, move threshold -/

/-- C15. When `handleTouchInput` finds no sample (interrupt line high, or
fewer than 6 bytes readable) it returns TOUCH_NONE with `is_valid = false`
and leaves the whole classifier state unchanged (`touch_pressed`,
`last_touch_x`, `last_touch_y`, `touch_start_time`, `digital_crown_value`):
a press in progress stays in progress. -/
theorem handleTouchInput_missing_poll (s : TouchState) (r : TouchRead)
    (h : r.int_high = true ∨ r.available < 6) :
    (handleTouchInput s r).1.event = TOUCH_NONE ∧
    (handleTouchInput s r).1.is_valid = false ∧
    (handleTouchInput s r).2 = s ∧
    (handleTouchInput s r).2.touch_pressed = s.touch_pressed ∧
    (handleTouchInput s r).2.last_touch_x = s.last_touch_x ∧
    (handleTouchInput s r).2.last_touch_y = s.last_touch_y ∧
    (handleTouchInput s r).2.touch_start_time = s.touch_start_time ∧
    (handleTouchInput s r).2.digital_crown_value = s.digital_crown_value := by
  have key : handleTouchInput s r = (emptyGesture r, s) := by
    unfold handleTouchInput
    by_cases h1 : r.int_high = true
    · simp [h1]
    · rcases h with h | h
      · exact absurd h h1
      · simp [h1, h]
  rw [key]
  simp [emptyGesture]

/-- Witness of C15: during the press at (100,100), a read with the interrupt
line high and a read of three bytes both give no event and keep the press. -/
theorem handleTouchInput_missing_poll_witness :
    (noSampleAt 50).int_high = true ∧ (shortReadAt 60).available < 6 ∧
    pressedAt100.touch_pressed = true ∧
    (handleTouchInput pressedAt100 (noSampleAt 50)).1.event = TOUCH_NONE ∧
    (handleTouchInput pressedAt100 (noSampleAt 50)).2 = pressedAt100 ∧
    (handleTouchInput pressedAt100 (shortReadAt 60)).1.event = TOUCH_NONE ∧
    (handleTouchInput pressedAt100 (shortReadAt 60)).2 = pressedAt100 :=
  ⟨by decide, by decide, by decide,
   (handleTouchInput_missing_poll pressedAt100 (noSampleAt 50) (Or.inl (by decide))).1,
   (handleTouchInput_missing_poll pressedAt100 (noSampleAt 50) (Or.inl (by decide))).2.2.1,
   (handleTouchInput_missing_poll pressedAt100 (shortReadAt 60) (Or.inr (by decide))).1,
   (handleTouchInput_missing_poll pressedAt100 (shortReadAt 60) (Or.inr (by decide))).2.2.1⟩

/-- The gesture of a call is either the empty one or a valid one with an
event other than TOUCH_NONE. -/
theorem handleTouchInput_gesture_kind (s : TouchState) (r : TouchRead) :
    (handleTouchInput s r).1 = emptyGesture r ∨
    ((handleTouchInput s r).1.is_valid = true ∧
      (handleTouchInput s r).1.event ≠ TOUCH_NONE) := by
  by_cases h1 : r.int_high = true
  · left
    simp [handleTouchInput, h1]
  by_cases h2 : r.available < 6
  · left
    simp [handleTouchInput, h1, h2]
  by_cases h3 : touch_count r = 0
  · by_cases hp : s.touch_pressed = true
    · right
      simp only [handleTouchInput, h1, h2, h3, hp, ↓reduceIte, Bool.false_eq_true]
      refine ⟨trivial, ?_⟩
      split_ifs <;> simp
    · left
      simp [handleTouchInput, h1, h2, h3, hp]
  · by_cases hp : s.touch_pressed = true
    · simp only [handleTouchInput, h1, h2, h3, hp, ↓reduceIte, Bool.not_true,
        Bool.false_eq_true]
      by_cases hm : abs (touch_x s.touch_cal r - s.last_touch_x) > 5 ∨
          abs (touch_y s.touch_cal r - s.last_touch_y) > 5
      · right
        simp only [hm, ↓reduceIte]
        refine ⟨trivial, ?_⟩
        split_ifs <;> simp
      · left
        simp [hm]
    · right
      simp [handleTouchInput, h1, h2, h3, hp]

/-- C16. For every call of `handleTouchInput`, in every classifier state and
for every read, the returned gesture has `is_valid = true` if and only if its
event is not TOUCH_NONE. -/
theorem handleTouchInput_valid_iff (s : TouchState) (r : TouchRead) :
    (handleTouchInput s r).1.is_valid = true ↔ (handleTouchInput s r).1.event ≠ TOUCH_NONE := by
  rcases handleTouchInput_gesture_kind s r with h | ⟨h1, h2⟩
  · rw [h]
    simp [emptyGesture]
  · exact ⟨fun _ => h2, fun _ => h1⟩

/-- C17, counterexample.  After the press at (100,100), the contact read at
(104,104) has displacement `dx = dy = 4`, of magnitude `sqrt(32) > 5`
(`dx² + dy² = 32 > 25`), yet no event is produced and the last recorded
position stays (100,100). -/
theorem handleTouchInput_move_counterexample :
    isContactRead (contactAt 1174 983 250) ∧ pressedAt100.touch_pressed = true ∧
    moveDx pressedAt100 (contactAt 1174 983 250) = 4 ∧
    moveDy pressedAt100 (contactAt 1174 983 250) = 4 ∧
    moveDx pressedAt100 (contactAt 1174 983 250) * moveDx pressedAt100 (contactAt 1174 983 250) +
      moveDy pressedAt100 (contactAt 1174 983 250) * moveDy pressedAt100 (contactAt 1174 983 250)
      > 5 * 5 ∧
    (handleTouchInput pressedAt100 (contactAt 1174 983 250)).1.event = TOUCH_NONE ∧
    (handleTouchInput pressedAt100 (contactAt 1174 983 250)).1.is_valid = false ∧
    (handleTouchInput pressedAt100 (contactAt 1174 983 250)).2.last_touch_x = 100 ∧
    (handleTouchInput pressedAt100 (contactAt 1174 983 250)).2.last_touch_y = 100 ∧
    touch_x pressedAt100.touch_cal (contactAt 1174 983 250) = 104 ∧
    touch_y pressedAt100.touch_cal (contactAt 1174 983 250) = 104 := by
  decide

/-- C17, as amended.  For a contact read while pressed, with `(dx, dy)` the
displacement from the last recorded position: an event is produced if and
only if `max(|dx|, |dy|) > 5`; then it is a valid MOVE or swipe and the last
recorded position becomes the sample position; otherwise no event is produced
and the state, with the last recorded position, is unchanged.  Whenever the
test passes the magnitude `sqrt(dx² + dy²)` exceeds 5 as well. -/
theorem handleTouchInput_move_threshold (s : TouchState) (r : TouchRead)
    (hr : isContactRead r) (hp : s.touch_pressed = true) :
    ((handleTouchInput s r).1.event ≠ TOUCH_NONE ↔
      max (abs (moveDx s r)) (abs (moveDy s r)) > 5) ∧
    (max (abs (moveDx s r)) (abs (moveDy s r)) > 5 →
      ((handleTouchInput s r).1.event = TOUCH_MOVE ∨
        isSwipe (handleTouchInput s r).1.event = true) ∧
      (handleTouchInput s r).1.is_valid = true ∧
      (handleTouchInput s r).2.last_touch_x = touch_x s.touch_cal r ∧
      (handleTouchInput s r).2.last_touch_y = touch_y s.touch_cal r ∧
      moveDx s r * moveDx s r + moveDy s r * moveDy s r > 5 * 5) ∧
    (¬ max (abs (moveDx s r)) (abs (moveDy s r)) > 5 →
      (handleTouchInput s r).1.event = TOUCH_NONE ∧
      (handleTouchInput s r).1.is_valid = false ∧
      (handleTouchInput s r).2 = s) := by
  have hev := handleTouchInput_contact_pressed s r hr hp
  have hmax : max (abs (moveDx s r)) (abs (moveDy s r)) > 5 ↔
      (abs (moveDx s r) > 5 ∨ abs (moveDy s r) > 5) := by
    simp only [gt_iff_lt, lt_max_iff]
  obtain ⟨⟨a1, a2⟩, a3⟩ := hr
  have a2' : ¬ r.available < 6 := Nat.not_lt.mpr a2
  have pos : (abs (moveDx s r) > 5 ∨ abs (moveDy s r) > 5) →
      ((handleTouchInput s r).1.event = TOUCH_MOVE ∨
        isSwipe (handleTouchInput s r).1.event = true) ∧
      (handleTouchInput s r).1.is_valid = true ∧
      (handleTouchInput s r).2.last_touch_x = touch_x s.touch_cal r ∧
      (handleTouchInput s r).2.last_touch_y = touch_y s.touch_cal r ∧
      moveDx s r * moveDx s r + moveDy s r * moveDy s r > 5 * 5 := by
    intro h5
    refine ⟨?_, ?_, ?_, ?_, ?_⟩
    · rw [hev, if_pos h5]
      split_ifs <;> simp [isSwipe]
    · simp only [moveDx, moveDy] at h5
      simp [handleTouchInput, a1, a2', a3, hp, h5]
    · simp only [moveDx, moveDy] at h5
      simp [handleTouchInput, a1, a2', a3, hp, h5]
    · simp only [moveDx, moveDy] at h5
      simp [handleTouchInput, a1, a2', a3, hp, h5]
    · have hx : 0 ≤ moveDx s r * moveDx s r := mul_self_nonneg _
      have hy : 0 ≤ moveDy s r * moveDy s r := mul_self_nonneg _
      unfold abs at h5
      rcases h5 with h | h
      · split_ifs at h <;> nlinarith
      · split_ifs at h <;> nlinarith
  have neg : ¬ (abs (moveDx s r) > 5 ∨ abs (moveDy s r) > 5) →
      (handleTouchInput s r).1.event = TOUCH_NONE ∧
      (handleTouchInput s r).1.is_valid = false ∧
      (handleTouchInput s r).2 = s := by
    intro h5
    simp only [moveDx, moveDy] at h5
    simp [handleTouchInput, a1, a2', a3, hp, h5, emptyGesture]
  refine ⟨?_, fun h => pos (hmax.mp h), fun h => neg (fun h' => h (hmax.mpr h'))⟩
  rw [hmax]
  constructor
  · intro hne
    by_contra h5
    exact hne (neg h5).1
  · intro h5
    rcases (pos h5).1 with h | h
    · rw [h]; decide
    · intro h0
      rw [h0] at h
      exact absurd h (by decide)

/-- Witness of C17 as amended: the contact read at (104,104) after the press
at (100,100) has `max(|dx|, |dy|) = 4`, so no event is produced. -/
theorem handleTouchInput_move_threshold_witness :
    isContactRead (contactAt 1174 983 250) ∧ pressedAt100.touch_pressed = true ∧
    (handleTouchInput pressedAt100 (contactAt 1174 983 250)).1.event = TOUCH_NONE ∧
    (handleTouchInput pressedAt100 (contactAt 1174 983 250)).2 = pressedAt100 :=
  ⟨by decide, by decide,
   ((handleTouchInput_move_threshold pressedAt100 (contactAt 1174 983 250) (by decide)
      (by decide)).2.2 (by decide)).1,
   ((handleTouchInput_move_threshold pressedAt100 (contactAt 1174 983 250) (by decide)
      (by decide)).2.2 (by decide)).2.2⟩

/-! ## Theorems: dispatch and frame -/

/-- C18, the code at the failing inputs.  The entries of Files, PDF and Notes
declare the touch handlers `handleFileBrowserTouch`, `handlePDFReaderTouch`
and `handleNotesTouch`, and the draw functions of Files and PDF are the ones
drawn on SCREEN_FILE_BROWSER and SCREEN_PDF_READER; yet on the screens
SCREEN_FILE_BROWSER, SCREEN_PDF_READER and SCREEN_NOTES `handleUITouch`
invokes nothing for a tap.  On SCREEN_MUSIC and SCREEN_SETTINGS it does invoke
the handler that the entry of the app declares. -/
theorem handleUITouch_unrouted_screens :
    touchOf registered_apps APP_FILES = some .handleFileBrowserTouch ∧
    (∃ a ∈ registered_apps, a.type = APP_FILES ∧
      a.draw_func = some (drawCurrentScreen SCREEN_FILE_BROWSER)) ∧
    handleUITouch registered_apps (setCurrentScreen homeNavState SCREEN_FILE_BROWSER)
      (tapAt 100 320) = setCurrentScreen homeNavState SCREEN_FILE_BROWSER ∧
    touchOf registered_apps APP_PDF_READER = some .handlePDFReaderTouch ∧
    (∃ a ∈ registered_apps, a.type = APP_PDF_READER ∧
      a.draw_func = some (drawCurrentScreen SCREEN_PDF_READER)) ∧
    handleUITouch registered_apps (setCurrentScreen homeNavState SCREEN_PDF_READER)
      (tapAt 100 320) = setCurrentScreen homeNavState SCREEN_PDF_READER ∧
    touchOf registered_apps APP_NOTES = some .handleNotesTouch ∧
    handleUITouch registered_apps (setCurrentScreen homeNavState SCREEN_NOTES)
      (tapAt 100 300) = setCurrentScreen homeNavState SCREEN_NOTES ∧
    (handleUITouch registered_apps (setCurrentScreen homeNavState SCREEN_MUSIC)
      (tapAt 100 300)).calls = (touchOf registered_apps APP_MUSIC).toList ∧
    (handleUITouch registered_apps (setCurrentScreen homeNavState SCREEN_SETTINGS)
      (tapAt 100 110)).calls = (touchOf registered_apps APP_SETTINGS).toList ∧
    touchOf registered_apps APP_MUSIC = some .handleMusicTouch ∧
    touchOf registered_apps APP_SETTINGS = some .handleSettingsTouch := by
  decide

/-- C19. For every current screen, `handleUITouch` called with a gesture whose
event is TOUCH_NONE launches no app and leaves `current_app`,
`current_screen` and `current_app_index` (and `current_ui_screen`)
unchanged; on the grid screen it changes nothing at all. -/
theorem handleUITouch_none (apps : List WatchApp) (s : NavState) (g : TouchGesture)
    (h : g.event = TOUCH_NONE) :
    gridLaunch apps g = none ∧
    (handleUITouch apps s g).current_app = s.current_app ∧
    (handleUITouch apps s g).current_screen = s.current_screen ∧
    (handleUITouch apps s g).current_app_index = s.current_app_index ∧
    (handleUITouch apps s g).current_ui_screen = s.current_ui_screen ∧
    (s.current_ui_screen = SCREEN_APP_GRID → handleUITouch apps s g = s) := by
  have hg : gridLaunch apps g = none := by
    unfold gridLaunch
    rw [if_pos (by rw [h]; decide)]
  have hgrid : handleAppGridTouch apps s g = s := by
    unfold handleAppGridTouch
    rw [hg]
  refine ⟨hg, ?_⟩
  unfold handleUITouch
  cases hs : s.current_ui_screen <;> simp [hgrid, invoke, hs]

/-- Witness of C19: on the grid screen, a gesture without event positioned
inside the Settings cell launches nothing. -/
theorem handleUITouch_none_witness :
    (noneAt 180 300).event = TOUCH_NONE ∧ inCell 7 180 300 ∧
    handleUITouch registered_apps (setCurrentScreen homeNavState SCREEN_APP_GRID)
      (noneAt 180 300) = setCurrentScreen homeNavState SCREEN_APP_GRID :=
  ⟨rfl, by decide,
   (handleUITouch_none registered_apps (setCurrentScreen homeNavState SCREEN_APP_GRID)
     (noneAt 180 300) rfl).2.2.2.2.2 rfl⟩

theorem acceptedCalls_cons (thr : ℚ) (s : SensorState) (p : StepPoll) (ps : List StepPoll) :
    acceptedCalls thr s (p :: ps) =
      decide (accepts s p) :: acceptedCalls thr (updateStepCounter thr s p) ps := by
  simp [acceptedCalls, runPolls]

/-- A call that is not accepted changes nothing. -/
theorem updateStepCounter_rejected (thr : ℚ) (s : SensorState) (p : StepPoll)
    (h : ¬ accepts s p) : updateStepCounter thr s p = s := by
  unfold updateStepCounter
  unfold accepts at h
  by_cases ha : s.step_detection_active = true
  · have hlt : subU32 p.current_time s.last_step_check < 50 := by
      by_contra hc
      exact h ⟨ha, hc⟩
    simp [ha, hlt]
  · simp [ha]

/-- What an accepted call does. -/
theorem updateStepCounter_accepted (thr : ℚ) (s : SensorState) (p : StepPoll)
    (h : accepts s p) :
    updateStepCounter thr s p =
      { s with
        current_imu := p.magnitude
        detector := (detectStep thr s.detector p.magnitude p.detect_time).2
        step_data :=
          if (detectStep thr s.detector p.magnitude p.detect_time).1 = true
          then countStep s.step_data p.current_time else s.step_data
        last_step_check := p.current_time % U32 } := by
  unfold updateStepCounter
  obtain ⟨ha, hlt⟩ := h
  simp [ha, hlt]

/-- The field `last_step_check` after a call: the entry clock reading if the
call was accepted, unchanged otherwise. -/
theorem updateStepCounter_last_check (thr : ℚ) (s : SensorState) (p : StepPoll) :
    (updateStepCounter thr s p).last_step_check =
      if accepts s p then p.current_time % U32 else s.last_step_check := by
  by_cases h : accepts s p
  · rw [updateStepCounter_accepted thr s p h, if_pos h]
  · rw [updateStepCounter_rejected thr s p h, if_neg h]

/-- With ordered clock readings that are not before `last_step_check`, every
accepted call comes at least 50 ms after `last_step_check`. -/
theorem accepted_after_last_check (thr : ℚ) (ps : List StepPoll) (s : SensorState)
    (ho : pollsOrdered ps) (hs : ∀ p ∈ ps, s.last_step_check ≤ p.current_time)
    (j : Nat) (q : StepPoll) (hq : ps[j]? = some q)
    (hf : (acceptedCalls thr s ps)[j]? = some true) :
    s.last_step_check + 50 ≤ q.current_time := by
  induction ps generalizing s j q with
  | nil => simp at hq
  | cons p ps ih =>
    obtain ⟨hp, hb⟩ := ho
    rw [List.pairwise_cons] at hp
    have hpb : p.current_time < U32 := hb p (by simp)
    have hps : s.last_step_check ≤ p.current_time := hs p (by simp)
    rw [acceptedCalls_cons] at hf
    cases j with
    | zero =>
      simp only [List.getElem?_cons_zero, Option.some.injEq, decide_eq_true_eq] at hq hf
      rw [← hq]
      have h := hf.2
      rw [subU32_of_le hpb hps] at h
      omega
    | succ j =>
      simp only [List.getElem?_cons_succ] at hq hf
      have hls := updateStepCounter_last_check thr s p
      have hle : s.last_step_check ≤ (updateStepCounter thr s p).last_step_check ∧
          (updateStepCounter thr s p).last_step_check ≤ p.current_time := by
        clear ih hf
        rw [hls]
        split_ifs
        · rw [Nat.mod_eq_of_lt hpb]
          exact ⟨hps, le_refl _⟩
        · exact ⟨le_refl _, hps⟩
      have := ih (updateStepCounter thr s p)
        ⟨hp.2, fun z hz => hb z (by simp [hz])⟩
        (fun z hz => le_trans hle.2 (hp.1 z hz)) j q hq hf
      omega

/-- With ordered clock readings, two accepted calls are at least 50 ms apart. -/
theorem accepted_far_apart (thr : ℚ) (ps : List StepPoll) (s : SensorState)
    (ho : pollsOrdered ps) (i j : Nat) (hij : i < j) (p q : StepPoll)
    (hp : ps[i]? = some p) (hq : ps[j]? = some q)
    (hfi : (acceptedCalls thr s ps)[i]? = some true)
    (hfj : (acceptedCalls thr s ps)[j]? = some true) :
    p.current_time + 50 ≤ q.current_time := by
  induction ps generalizing s i j p q with
  | nil => simp at hp
  | cons a ps ih =>
    obtain ⟨hpw, hb⟩ := ho
    rw [List.pairwise_cons] at hpw
    have hab : a.current_time < U32 := hb a (by simp)
    have ho1 : pollsOrdered ps := ⟨hpw.2, fun z hz => hb z (by simp [hz])⟩
    rw [acceptedCalls_cons] at hfi hfj
    cases j with
    | zero => omega
    | succ j =>
      simp only [List.getElem?_cons_succ] at hq hfj
      cases i with
      | zero =>
        simp only [List.getElem?_cons_zero, Option.some.injEq, decide_eq_true_eq] at hp hfi
        rw [← hp]
        have hls := updateStepCounter_last_check thr s a
        rw [if_pos hfi, Nat.mod_eq_of_lt hab] at hls
        have := accepted_after_last_check thr ps (updateStepCounter thr s a) ho1
          (fun z hz => by rw [hls]; exact hpw.1 z hz) j q hq hfj
        omega
      | succ i =>
        simp only [List.getElem?_cons_succ] at hp hfi
        exact ih (updateStepCounter thr s a) ho1 i j (by omega) p q hp hq hfi hfj

/-- C21. A call of `updateStepCounter` with
`current_time − last_step_check < 50` reads no sample, does not call
`detectStep` and leaves `step_data`, the detector state, `last_step_check`
(and every other variable) unchanged.  An accepted call hands the sample to
`detectStep` once, records `last_step_check = current_time`, and increases
`daily_steps` by exactly 1 when `detectStep` returns true and by 0 otherwise.
Hence, with non-decreasing clock readings, any two accepted calls, the ones
whose samples reach `detectStep`, are at least 50 ms apart. -/
theorem updateStepCounter_rate_limit (thr : ℚ) :
    (∀ (s : SensorState) (p : StepPoll), subU32 p.current_time s.last_step_check < 50 →
      updateStepCounter thr s p = s) ∧
    (∀ (s : SensorState) (p : StepPoll), accepts s p →
      (updateStepCounter thr s p).detector =
        (detectStep thr s.detector p.magnitude p.detect_time).2 ∧
      (updateStepCounter thr s p).current_imu = p.magnitude ∧
      (updateStepCounter thr s p).last_step_check = p.current_time % U32 ∧
      (updateStepCounter thr s p).step_data.daily_steps = s.step_data.daily_steps +
        (if (detectStep thr s.detector p.magnitude p.detect_time).1 = true then 1 else 0)) ∧
    (∀ (s : SensorState) (ps : List StepPoll), pollsOrdered ps →
      ∀ (i j : Nat) (p q : StepPoll), i < j → ps[i]? = some p → ps[j]? = some q →
      (acceptedCalls thr s ps)[i]? = some true → (acceptedCalls thr s ps)[j]? = some true →
      p.current_time + 50 ≤ q.current_time) := by
  refine ⟨?_, ?_, ?_⟩
  · intro s p h
    exact updateStepCounter_rejected thr s p (fun ha => ha.2 h)
  · intro s p h
    rw [updateStepCounter_accepted thr s p h]
    refine ⟨rfl, rfl, rfl, ?_⟩
    by_cases hd : (detectStep thr s.detector p.magnitude p.detect_time).1 = true
    · simp [hd, countStep]
    · simp [hd]
  · intro s ps ho i j p q hij hp hq hfi hfj
    exact accepted_far_apart thr ps s ho i j hij p q hp hq hfi hfj

theorem samplePolls_ordered : pollsOrdered samplePolls := by
  constructor
  · simp [samplePolls]
  · simp [samplePolls, U32]

/-- Witness of C21: of the polls at t = 1000, 1030, 1060 the second comes
30 ms after the first accepted one and is rejected; the accepted first and
third are 60 ms apart. -/
theorem updateStepCounter_rate_limit_witness :
    pollsOrdered samplePolls ∧
    acceptedCalls MIN_STEP_THRESHOLD initSensorState samplePolls = [true, false, true] ∧
    (1000 : Nat) + 50 ≤ 1060 :=
  have h : acceptedCalls MIN_STEP_THRESHOLD initSensorState samplePolls
      = [true, false, true] := by
    norm_num [acceptedCalls, runPolls, samplePolls, accepts, updateStepCounter, detectStep,
      initSensorState, initStepState, MIN_STEP_THRESHOLD, STEP_TIME_WINDOW, subU32, U32]
  ⟨samplePolls_ordered, h,
   (updateStepCounter_rate_limit MIN_STEP_THRESHOLD).2.2 initSensorState samplePolls
     samplePolls_ordered 0 2 ⟨1000, 5 / 10, 1001⟩ ⟨1060, 13 / 10, 1061⟩ (by decide) rfl rfl
     (by rw [h]; rfl) (by rw [h]; rfl)⟩

/-! ## Theorems: registry index, screen copies, registry contents -/

/-- C22, the code at the failing input.  After `launchApp(APP_MUSIC)` the
entry at `current_app_index` is the current app's.  `exitCurrentApp` then
sets the current app to APP_WATCHFACE and leaves `current_app_index` at 2,
the Music entry: the predicate no longer holds, and a second
`exitCurrentApp` consults the Music entry again.  Over any table, two exits
in a row invoke the cleanup of the entry at `current_app_index` twice. -/
theorem exitCurrentApp_index_stale :
    indexTracksApp registered_apps musicNavState ∧
    (exitCurrentApp registered_apps musicNavState).current_app = APP_WATCHFACE ∧
    (exitCurrentApp registered_apps musicNavState).current_app_index = 2 ∧
    (registered_apps[(exitCurrentApp registered_apps musicNavState).current_app_index]?).map
      WatchApp.type = some APP_MUSIC ∧
    ¬ indexTracksApp registered_apps (exitCurrentApp registered_apps musicNavState) ∧
    (∀ (apps : List WatchApp) (s : NavState) (a : WatchApp),
      apps[s.current_app_index]? = some a →
      (exitCurrentApp apps (exitCurrentApp apps s)).calls =
        s.calls ++ a.cleanup_func.toList ++ a.cleanup_func.toList) := by
  refine ⟨by decide, by decide, by decide, by decide, by decide, ?_⟩
  intro apps s a ha
  have h1 := exitCurrentApp_eq apps s a ha
  have ha2 : apps[(exitCurrentApp apps s).current_app_index]? = some a := by
    rw [h1]; exact ha
  rw [exitCurrentApp_eq apps (exitCurrentApp apps s) a ha2, h1]

/-- C23, the code at the failing inputs.  From the watch face after
`initializeUI`, where both copies are SCREEN_WATCHFACE, `launchApp(APP_MUSIC)`
sets `system_state.current_screen` to SCREEN_APP_GRID and leaves
`current_ui_screen` at SCREEN_WATCHFACE; and after
`setCurrentScreen(SCREEN_MUSIC)`, which writes both copies, `exitCurrentApp`
sets `system_state.current_screen` to SCREEN_WATCHFACE and leaves
`current_ui_screen` at SCREEN_MUSIC.  The copies disagree in both states. -/
theorem screen_copies_diverge :
    screensAgree (initializeUI homeNavState) ∧
    (launchApp registered_apps (initializeUI homeNavState) APP_MUSIC).current_screen
      = SCREEN_APP_GRID ∧
    (launchApp registered_apps (initializeUI homeNavState) APP_MUSIC).current_ui_screen
      = SCREEN_WATCHFACE ∧
    ¬ screensAgree (launchApp registered_apps (initializeUI homeNavState) APP_MUSIC) ∧
    screensAgree (setCurrentScreen (initializeUI homeNavState) SCREEN_MUSIC) ∧
    (exitCurrentApp registered_apps
      (setCurrentScreen (initializeUI homeNavState) SCREEN_MUSIC)).current_screen
      = SCREEN_WATCHFACE ∧
    (exitCurrentApp registered_apps
      (setCurrentScreen (initializeUI homeNavState) SCREEN_MUSIC)).current_ui_screen
      = SCREEN_MUSIC ∧
    ¬ screensAgree (exitCurrentApp registered_apps
      (setCurrentScreen (initializeUI homeNavState) SCREEN_MUSIC)) := by
  decide

/-- In the shipped table, entries at different indices have different types. -/
theorem registered_apps_injective (i j : Nat) (a b : WatchApp)
    (ha : registered_apps[i]? = some a) (hb : registered_apps[j]? = some b)
    (h : a.type = b.type) : i = j := by
  have hi : i < 9 := by
    by_contra hc
    rw [List.getElem?_eq_none (by simpa [registered_apps] using hc)] at ha
    exact absurd ha (by simp)
  have hj : j < 9 := by
    by_contra hc
    rw [List.getElem?_eq_none (by simpa [registered_apps] using hc)] at hb
    exact absurd hb (by simp)
  have key : ∀ i < 9, ∀ j < 9,
      (registered_apps[i]?).map WatchApp.type = (registered_apps[j]?).map WatchApp.type →
      i = j := by decide
  exact key i hi j hj (by rw [ha, hb]; simp [h])

/-- C26. The shipped table has nine entries and their types are a permutation
of the nine values of `AppType`: every value is the type of exactly one
entry.  So for every value `launchApp` finds an entry of that type, the only
one, and sets `current_app_index` to its index, which is below 9: every
registered app has a cell of the 9-cell grid. -/
theorem registry_permutation :
    num_registered_apps = 9 ∧
    (registered_apps.map WatchApp.type).Perm allAppTypes ∧
    (∀ app : AppType, registered_apps.countP (fun a => decide (a.type = app)) = 1) ∧
    (∀ (i j : Nat) (a b : WatchApp), registered_apps[i]? = some a →
      registered_apps[j]? = some b → a.type = b.type → i = j) ∧
    (∀ (s : NavState) (app : AppType),
      (launchApp registered_apps s app).current_app_index < 9 ∧
      ∃ a, registered_apps[(launchApp registered_apps s app).current_app_index]? = some a ∧
        a.type = app ∧
        ∀ (k : Nat) (b : WatchApp), registered_apps[k]? = some b → b.type = app →
          k = (launchApp registered_apps s app).current_app_index) := by
  refine ⟨rfl, by decide, ?_, registered_apps_injective, ?_⟩
  · intro app
    cases app <;> decide
  · intro s app
    obtain ⟨k, a, hk, ha, hta⟩ := launchScan_index app registered_apps 0
      { s with current_app := app, current_screen := SCREEN_APP_GRID }
      (registered_apps_complete app)
    rw [Nat.zero_add] at hk
    have hidx : (launchApp registered_apps s app).current_app_index = k := hk
    have hk9 : k < 9 := by
      by_contra hc
      rw [List.getElem?_eq_none (by simpa [registered_apps] using hc)] at ha
      exact absurd ha (by simp)
    rw [hidx]
    refine ⟨hk9, a, ha, hta, ?_⟩
    intro k2 b hb htb
    exact registered_apps_injective k2 k b a hb ha (by rw [htb, hta])

/-! ## Theorems: coordinates on the display -/

/-- C's truncating division by a positive number is monotone. -/
theorem tdiv_mono {a b c : Int} (hc : 0 < c) (hab : a ≤ b) : Int.tdiv a c ≤ Int.tdiv b c := by
  have hneg : ∀ x : Int, x ≤ 0 → Int.tdiv x c = -((-x) / c) := by
    intro x hx
    have h1 : Int.tdiv x c = -(Int.tdiv (-x) c) := by
      rw [Int.neg_tdiv, Int.neg_neg]
    rw [h1, Int.tdiv_eq_ediv (by omega) (by omega)]
  by_cases ha : 0 ≤ a
  · rw [Int.tdiv_eq_ediv ha (by omega), Int.tdiv_eq_ediv (by omega) (by omega)]
    exact Int.ediv_le_ediv hc hab
  · by_cases hb : 0 ≤ b
    · rw [hneg a (by omega), Int.tdiv_eq_ediv hb (by omega)]
      have h1 : 0 ≤ (-a) / c := Int.ediv_nonneg (by omega) (by omega)
      have h2 : 0 ≤ b / c := Int.ediv_nonneg hb (by omega)
      omega
    · rw [hneg a (by omega), hneg b (by omega)]
      have := Int.ediv_le_ediv hc (show -b ≤ -a by omega)
      omega

theorem constrain_bounds (amt low high : Int) (h : low ≤ high) :
    low ≤ constrain amt low high ∧ constrain amt low high ≤ high := by
  unfold constrain
  split_ifs <;> omega

theorem constrain_mono (a b low high : Int) (hab : a ≤ b) (h : low ≤ high) :
    constrain a low high ≤ constrain b low high := by
  unfold constrain
  split_ifs <;> omega

theorem touch_x_bounds (c : TouchCalibration) (r : TouchRead) :
    0 ≤ touch_x c r ∧ touch_x c r ≤ 367 := by
  have := constrain_bounds (map (raw_x r) c.min_x c.max_x 0 DISPLAY_WIDTH) 0
    (DISPLAY_WIDTH - 1) (by decide)
  exact this

theorem touch_y_bounds (c : TouchCalibration) (r : TouchRead) :
    0 ≤ touch_y c r ∧ touch_y c r ≤ 447 := by
  have := constrain_bounds (map (raw_y r) c.min_y c.max_y 0 DISPLAY_HEIGHT) 0
    (DISPLAY_HEIGHT - 1) (by decide)
  exact this

/-- One call keeps the last recorded position on the display and reports a
position on the display in every valid gesture. -/
theorem handleTouchInput_on_display (s : TouchState) (r : TouchRead) (hs : lastOnDisplay s) :
    lastOnDisplay (handleTouchInput s r).2 ∧
    ((handleTouchInput s r).1.is_valid = true → onDisplay (handleTouchInput s r).1) := by
  have hx := touch_x_bounds s.touch_cal r
  have hy := touch_y_bounds s.touch_cal r
  have hempty : (emptyGesture r).is_valid = true → onDisplay (emptyGesture r) := by
    intro h
    simp [emptyGesture] at h
  by_cases h1 : r.int_high = true
  · have : handleTouchInput s r = (emptyGesture r, s) := by simp [handleTouchInput, h1]
    rw [this]
    exact ⟨hs, hempty⟩
  by_cases h2 : r.available < 6
  · have : handleTouchInput s r = (emptyGesture r, s) := by simp [handleTouchInput, h1, h2]
    rw [this]
    exact ⟨hs, hempty⟩
  by_cases h3 : touch_count r = 0
  · by_cases hp : s.touch_pressed = true
    · have hl := hs hp
      simp only [handleTouchInput, h1, h2, h3, hp, ↓reduceIte, Bool.false_eq_true]
      refine ⟨fun h => absurd h (by simp), fun _ => ?_⟩
      exact hl
    · have : handleTouchInput s r = (emptyGesture r, s) := by
        simp [handleTouchInput, h1, h2, h3, hp]
      rw [this]
      exact ⟨hs, hempty⟩
  · by_cases hp : s.touch_pressed = true
    · simp only [handleTouchInput, h1, h2, h3, hp, ↓reduceIte, Bool.not_true,
        Bool.false_eq_true]
      by_cases hm : abs (touch_x s.touch_cal r - s.last_touch_x) > 5 ∨
          abs (touch_y s.touch_cal r - s.last_touch_y) > 5
      · simp only [hm, ↓reduceIte]
        exact ⟨fun _ => ⟨hx.1, hx.2, hy.1, hy.2⟩, fun _ => ⟨hx.1, hx.2, hy.1, hy.2⟩⟩
      · simp only [hm, ↓reduceIte]
        exact ⟨hs, hempty⟩
    · simp only [handleTouchInput, h1, h2, h3, hp, ↓reduceIte, Bool.false_eq_true]
      simp only [Bool.not_eq_true] at hp
      simp only [hp, Bool.not_false, ↓reduceIte]
      exact ⟨fun _ => ⟨hx.1, hx.2, hy.1, hy.2⟩, fun _ => ⟨hx.1, hx.2, hy.1, hy.2⟩⟩

theorem runTouch_cons (s : TouchState) (r : TouchRead) (rs : List TouchRead) :
    (runTouch s (r :: rs)).1 =
      (handleTouchInput s r).1 :: (runTouch (handleTouchInput s r).2 rs).1 := by
  simp [runTouch]

/-- Every valid gesture of a run that starts with the last recorded position
on the display reports a position on the display. -/
theorem runTouch_on_display (rs : List TouchRead) (s : TouchState) (hs : lastOnDisplay s)
    (g : TouchGesture) (hg : g ∈ (runTouch s rs).1) (hv : g.is_valid = true) : onDisplay g := by
  induction rs generalizing s with
  | nil => simp [runTouch] at hg
  | cons r rs ih =>
    rw [runTouch_cons] at hg
    have hstep := handleTouchInput_on_display s r hs
    rcases List.mem_cons.mp hg with h | h
    · rw [h] at hv ⊢
      exact hstep.2 hv
    · exact ih _ hstep.1 h

/-- The calibration map of the default range is monotone in the raw value. -/
theorem map_default_mono (a b out_max : Int) (hab : a ≤ b) (ho : 0 ≤ out_max) :
    map a 100 3900 0 out_max ≤ map b 100 3900 0 out_max := by
  unfold map
  have h1 : (a - 100) * (out_max - 0) ≤ (b - 100) * (out_max - 0) := by
    apply Int.mul_le_mul_of_nonneg_right <;> omega
  have := tdiv_mono (show (0 : Int) < 3900 - 100 by decide) h1
  omega

/-- C24. With the default calibration (100..3900 on both axes), for every
sequence of reads from the initial state, every valid gesture returned by
`handleTouchInput` has `0 ≤ x ≤ 367` and `0 ≤ y ≤ 447`; and the calibrated and
clamped coordinate is monotonically non-decreasing in the raw coordinate. -/
theorem touch_coordinates_on_display :
    initTouchState.touch_cal = loadTouchCalibration ∧
    (∀ (rs : List TouchRead) (g : TouchGesture), g ∈ (runTouch initTouchState rs).1 →
      g.is_valid = true → 0 ≤ g.x ∧ g.x ≤ 367 ∧ 0 ≤ g.y ∧ g.y ≤ 447) ∧
    (∀ r1 r2 : TouchRead, raw_x r1 ≤ raw_x r2 →
      touch_x loadTouchCalibration r1 ≤ touch_x loadTouchCalibration r2) ∧
    (∀ r1 r2 : TouchRead, raw_y r1 ≤ raw_y r2 →
      touch_y loadTouchCalibration r1 ≤ touch_y loadTouchCalibration r2) := by
  refine ⟨rfl, ?_, ?_, ?_⟩
  · intro rs g hg hv
    exact runTouch_on_display rs initTouchState (fun h => absurd h (by decide)) g hg hv
  · intro r1 r2 h
    unfold touch_x
    exact constrain_mono _ _ _ _ (map_default_mono _ _ DISPLAY_WIDTH h (by decide)) (by decide)
  · intro r1 r2 h
    unfold touch_y
    exact constrain_mono _ _ _ _ (map_default_mono _ _ DISPLAY_HEIGHT h (by decide)) (by decide)

/-- Witness of C24: the press at raw (4095, 4095), beyond the calibrated
range, is reported at the display corner (367, 447), and its release too. -/
theorem touch_coordinates_on_display_witness :
    (runTouch initTouchState [contactAt 4095 4095 0, releaseAt 150]).1.map
      (fun g => (g.is_valid, g.x, g.y)) = [(true, 367, 447), (true, 367, 447)] ∧
    ∀ g ∈ (runTouch initTouchState [contactAt 4095 4095 0, releaseAt 150]).1,
      g.is_valid = true → 0 ≤ g.x ∧ g.x ≤ 367 ∧ 0 ≤ g.y ∧ g.y ≤ 447 :=
  ⟨by decide, touch_coordinates_on_display.2.1 [contactAt 4095 4095 0, releaseAt 150]⟩

/-! ## Theorems: start of the step detector -/

/-- While `last_step` is 0, a call with a clock reading of at most 500 does
not fire. -/
theorem detectStep_early (thr : ℚ) (s : StepState) (m : ℚ) (t : Nat)
    (hs : s.last_step = 0) (ht : t ≤ 500) :
    (detectStep thr s m t).1 = false ∧ (detectStep thr s m t).2.last_step = 0 := by
  have hno : ¬ (detectStep thr s m t).1 = true := by
    intro hf
    have h := (detectStep_true thr s m t hf).2.1
    rw [hs, subU32_zero] at h
    have := Nat.mod_le t U32
    simp only [STEP_TIME_WINDOW] at h
    omega
  have hls := detectStep_last_step thr s m t
  rw [if_neg hno, hs] at hls
  exact ⟨by simpa using hno, hls⟩

/-- While `last_step` is 0, no call of a run fires as long as every call so
far had a clock reading of at most 500. -/
theorem early_no_fire (thr : ℚ) (xs : List StepSample) (s : StepState) (j : Nat)
    (hs : s.last_step = 0)
    (hall : ∀ (k : Nat) (x : StepSample), k ≤ j → xs[k]? = some x → x.time ≤ 500)
    (hj : j < xs.length) : (stepResults thr s xs)[j]? = some false := by
  induction xs generalizing s j with
  | nil => simp at hj
  | cons x xs ih =>
    rw [stepResults_cons]
    have hx : x.time ≤ 500 := hall 0 x (by omega) (by simp)
    have he := detectStep_early thr s x.magnitude x.time hs hx
    cases j with
    | zero => simp [he.1]
    | succ j =>
      simp only [List.getElem?_cons_succ]
      refine ih _ j he.2 ?_ (by simpa using hj)
      intro k y hk hy
      exact hall (k + 1) y (by omega) (by simpa using hy)

theorem pairwise_time_le (xs : List StepSample)
    (hp : xs.Pairwise (fun a b => a.time ≤ b.time)) (k j : Nat) (x y : StepSample)
    (hkj : k ≤ j) (hx : xs[k]? = some x) (hy : xs[j]? = some y) : x.time ≤ y.time := by
  induction xs generalizing k j with
  | nil => simp at hx
  | cons a xs ih =>
    rw [List.pairwise_cons] at hp
    cases k with
    | zero =>
      simp only [List.getElem?_cons_zero, Option.some.injEq] at hx
      cases j with
      | zero =>
        simp only [List.getElem?_cons_zero, Option.some.injEq] at hy
        rw [← hx, ← hy]
      | succ j =>
        simp only [List.getElem?_cons_succ] at hy
        rw [← hx]
        exact hp.1 y (List.getElem?_mem hy)
    | succ k =>
      cases j with
      | zero => omega
      | succ j =>
        simp only [List.getElem?_cons_succ] at hx hy
        exact ih hp.2 k j (by omega) hx hy

/-- C25. From the initial state of `detectStep`, whatever the magnitudes: no
call returns true while the clock readings of the calls so far are at most
500, so in particular, with non-decreasing clock readings, no call with
`current_time ≤ 500` returns true.  A first call with a magnitude above the
(positive) threshold at a time above 500 returns true: the initial
`last_magnitude = 0` counts as a valley. -/
theorem no_step_first_500 (thr : ℚ) :
    (∀ (xs : List StepSample) (j : Nat),
      (∀ (k : Nat) (x : StepSample), k ≤ j → xs[k]? = some x → x.time ≤ 500) →
      j < xs.length → (stepResults thr initStepState xs)[j]? = some false) ∧
    (∀ (xs : List StepSample), timesOrdered xs →
      ∀ (j : Nat) (y : StepSample), xs[j]? = some y → y.time ≤ 500 →
      (stepResults thr initStepState xs)[j]? = some false) ∧
    (∀ (m : ℚ) (t : Nat), 0 < thr → thr < m → 500 < t → t < U32 →
      (detectStep thr initStepState m t).1 = true) := by
  refine ⟨?_, ?_, ?_⟩
  · intro xs j hall hj
    exact early_no_fire thr xs initStepState j rfl hall hj
  · intro xs ho j y hy ht
    have hj : j < xs.length := by
      by_contra hc
      rw [List.getElem?_eq_none (by omega)] at hy
      exact absurd hy (by simp)
    refine early_no_fire thr xs initStepState j rfl ?_ hj
    intro k x hk hx
    exact le_trans (pairwise_time_le xs ho.1 k j x y hk hx hy) ht
  · intro m t h0 hm ht hu
    have h3 : subU32 t initStepState.last_step > STEP_TIME_WINDOW := by
      show subU32 t 0 > STEP_TIME_WINDOW
      rw [subU32_zero, Nat.mod_eq_of_lt hu]
      exact ht
    have h4 : initStepState.last_magnitude < thr * (8 / 10) := by
      show (0 : ℚ) < thr * (8 / 10)
      positivity
    rw [detectStep_fire thr initStepState m t hm rfl h3 h4]

/-- Witness of C25: with the reference magnitudes from t=0 every call comes
within the first 500 ms and the third call, a sample of 1.3, returns false;
the same sample as a first call at t=501 returns true. -/
theorem no_step_first_500_witness :
    (stepResults MIN_STEP_THRESHOLD initStepState (referenceSamples 0))[2]? = some false ∧
    (detectStep MIN_STEP_THRESHOLD initStepState (13 / 10) 501).1 = true :=
  ⟨(no_step_first_500 MIN_STEP_THRESHOLD).1 (referenceSamples 0) 2
     (by
       intro k x hk hx
       have hk3 : k = 0 ∨ k = 1 ∨ k = 2 := by omega
       rcases hk3 with h | h | h <;> subst h <;>
         simp [referenceSamples] at hx <;> rw [← hx] <;> decide)
     (by decide),
   (no_step_first_500 MIN_STEP_THRESHOLD).2.2 (13 / 10) 501
     (by norm_num [MIN_STEP_THRESHOLD]) (by norm_num [MIN_STEP_THRESHOLD])
     (by decide) (by decide)⟩

/-! ## Theorems: recognizeGesture -/

theorem gestureDistance_gt (dx dy : Int) (n : Nat) :
    gestureDistance dx dy > n ↔ dx * dx + dy * dy ≥ (n + 1) * (n + 1) := by
  unfold gestureDistance
  have h0 : 0 ≤ dx * dx + dy * dy := by nlinarith [mul_self_nonneg dx, mul_self_nonneg dy]
  have h1 : (n : Int) < (Nat.sqrt (dx * dx + dy * dy).toNat : Nat) ↔
      n + 1 ≤ Nat.sqrt (dx * dx + dy * dy).toNat := by omega
  rw [gt_iff_lt, h1, Nat.le_sqrt]
  constructor
  · intro h
    have : (((n + 1) * (n + 1) : Nat) : Int) ≤ ((dx * dx + dy * dy).toNat : Int) := by
      exact_mod_cast h
    rw [Int.toNat_of_nonneg h0] at this
    push_cast at this
    exact this
  · intro h
    have : (((n + 1) * (n + 1) : Nat) : Int) ≤ ((dx * dx + dy * dy).toNat : Int) := by
      rw [Int.toNat_of_nonneg h0]
      push_cast
      exact h
    exact_mod_cast this

/-- C27. For start and end points on the display and every duration, with
`d = floor(sqrt(dx² + dy²))`: `recognizeGesture` returns a swipe if and only
if `d > 50` and `duration < 500`; the swipe is horizontal (RIGHT if `dx > 0`,
else LEFT) if `|dx| > |dy|` and vertical (DOWN if `dy > 0`, else UP)
otherwise, so ties resolve to vertical; and the result is never TOUCH_PRESS,
TOUCH_RELEASE or TOUCH_MOVE. -/
theorem recognizeGesture_swipe (sx sy ex ey : Int) (duration : Nat)
    (_hs : inDisplay sx sy) (_he : inDisplay ex ey) :
    (isSwipe (recognizeGesture sx sy ex ey duration) = true ↔
      gestureDistance (ex - sx) (ey - sy) > 50 ∧ duration < 500) ∧
    (gestureDistance (ex - sx) (ey - sy) > 50 ↔
      (ex - sx) * (ex - sx) + (ey - sy) * (ey - sy) ≥ 51 * 51) ∧
    (gestureDistance (ex - sx) (ey - sy) > 50 → duration < 500 →
      (abs (ex - sx) > abs (ey - sy) →
        recognizeGesture sx sy ex ey duration =
          if ex - sx > 0 then TOUCH_SWIPE_RIGHT else TOUCH_SWIPE_LEFT) ∧
      (¬ abs (ex - sx) > abs (ey - sy) →
        recognizeGesture sx sy ex ey duration =
          if ey - sy > 0 then TOUCH_SWIPE_DOWN else TOUCH_SWIPE_UP)) ∧
    recognizeGesture sx sy ex ey duration ≠ TOUCH_PRESS ∧
    recognizeGesture sx sy ex ey duration ≠ TOUCH_RELEASE ∧
    recognizeGesture sx sy ex ey duration ≠ TOUCH_MOVE := by
  refine ⟨?_, ?_, ?_, ?_, ?_, ?_⟩
  · unfold recognizeGesture
    simp only []
    split_ifs with h1 h2 h3 h4 h5 h6 <;> simp [isSwipe] <;> omega
  · have := gestureDistance_gt (ex - sx) (ey - sy) 50
    simpa using this
  · intro hd ht
    have h1 : ¬ (duration > 800 ∧ gestureDistance (ex - sx) (ey - sy) < 20) := by omega
    have h2 : ¬ (duration < 300 ∧ gestureDistance (ex - sx) (ey - sy) < 20) := by omega
    unfold recognizeGesture
    simp only []
    rw [if_neg h1, if_neg h2, if_pos ⟨hd, ht⟩]
    constructor
    · intro h
      rw [if_pos h]
    · intro h
      rw [if_neg h]
  · unfold recognizeGesture
    simp only []
    split_ifs <;> simp
  · unfold recognizeGesture
    simp only []
    split_ifs <;> simp
  · unfold recognizeGesture
    simp only []
    split_ifs <;> simp

/-- Witness of C27: from (100,100) to (160,160) in 250 ms, `|dx| = |dy| = 60`
and `d = 84`: the tie resolves to the vertical SWIPE_DOWN. -/
theorem recognizeGesture_swipe_witness :
    inDisplay 100 100 ∧ inDisplay 160 160 ∧
    gestureDistance (160 - 100) (160 - 100) = 84 ∧
    recognizeGesture 100 100 160 160 250 = TOUCH_SWIPE_DOWN :=
  have hd : gestureDistance (160 - 100) (160 - 100) > 50 :=
    (gestureDistance_gt (160 - 100) (160 - 100) 50).mpr (by decide)
  ⟨by decide, by decide, by
     have h : Nat.sqrt 7200 = 84 := (Nat.eq_sqrt.mpr ⟨by decide, by decide⟩).symm
     show ((Nat.sqrt 7200 : Nat) : Int) = 84
     rw [h]
     rfl,
   by
     have h := ((recognizeGesture_swipe 100 100 160 160 250 (by decide) (by decide)).2.2.1
       hd (by decide)).2 (by decide)
     rw [h]
     decide⟩

/-! ## Theorems: battery percentage -/

/-- The percentage in closed form, by segment. -/
theorem batteryPercentage_eq (v : Int) :
    batteryPercentage v =
      if v ≥ 4100 then 100
      else if v ≥ 3900 then 80 + (v - 3900) * 20 / 200
      else if v ≥ 3700 then 40 + (v - 3700) * 40 / 200
      else if v ≥ 3400 then 10 + (v - 3400) * 30 / 300
      else if v ≥ 3200 then (v - 3200) * 10 / 200
      else 0 := by
  unfold batteryPercentage
  simp only []
  by_cases h1 : v ≥ 4100
  · simp [h1]
  by_cases h2 : v ≥ 3900
  · rw [if_neg h1, if_pos h2, if_neg h1, if_pos h2,
      Int.tdiv_eq_ediv (by omega) (by omega)]
    split_ifs <;> omega
  by_cases h3 : v ≥ 3700
  · rw [if_neg h1, if_neg h2, if_pos h3, if_neg h1, if_neg h2, if_pos h3,
      Int.tdiv_eq_ediv (by omega) (by omega)]
    split_ifs <;> omega
  by_cases h4 : v ≥ 3400
  · rw [if_neg h1, if_neg h2, if_neg h3, if_pos h4, if_neg h1, if_neg h2, if_neg h3, if_pos h4,
      Int.tdiv_eq_ediv (by omega) (by omega)]
    split_ifs <;> omega
  rw [if_neg h1, if_neg h2, if_neg h3, if_neg h4, if_neg h1, if_neg h2, if_neg h3, if_neg h4]
  by_cases h5 : v ≥ 3200
  · rw [if_pos h5, Int.tdiv_eq_ediv (by omega) (by omega)]
    split_ifs <;> omega
  · rw [if_neg h5]
    have hle : Int.tdiv ((v - 3200) * 10) 200 ≤ Int.tdiv 0 200 :=
      tdiv_mono (by decide) (by omega)
    have h0 : Int.tdiv 0 200 = 0 := by decide
    rw [h0] at hle
    split_ifs <;> omega

/-- C28. For every integer battery voltage in millivolts the percentage
computed by the piecewise-linear mapping and the clamping lies in 0..100, is
monotonically non-decreasing in the voltage, also across the segment
boundaries 3400, 3700, 3900 and 4100 mV, and equals 100 exactly when the
voltage is at least 4100 mV. -/
theorem batteryPercentage_bounds_mono :
    (∀ v : Int, 0 ≤ batteryPercentage v ∧ batteryPercentage v ≤ 100) ∧
    (∀ v w : Int, v ≤ w → batteryPercentage v ≤ batteryPercentage w) ∧
    (∀ v : Int, batteryPercentage v = 100 ↔ v ≥ 4100) ∧
    batteryPercentage 3399 = 9 ∧ batteryPercentage 3400 = 10 ∧
    batteryPercentage 3699 = 39 ∧ batteryPercentage 3700 = 40 ∧
    batteryPercentage 3899 = 79 ∧ batteryPercentage 3900 = 80 ∧
    batteryPercentage 4099 = 99 ∧ batteryPercentage 4100 = 100 := by
  refine ⟨?_, ?_, ?_, by decide, by decide, by decide, by decide, by decide, by decide,
    by decide, by decide⟩
  · intro v
    rw [batteryPercentage_eq]
    split_ifs <;> omega
  · intro v w h
    rw [batteryPercentage_eq, batteryPercentage_eq]
    split_ifs <;> omega
  · intro v
    rw [batteryPercentage_eq]
    split_ifs <;> omega

/-- Witness of C28: the voltages 3650 mV and 3750 mV lie on either side of the
3700 mV boundary and map to 35 % and 50 %. -/
theorem batteryPercentage_bounds_mono_witness :
    batteryPercentage 3650 = 35 ∧ batteryPercentage 3750 = 50 ∧
    batteryPercentage 3650 ≤ batteryPercentage 3750 :=
  ⟨by decide, by decide, batteryPercentage_bounds_mono.2.1 3650 3750 (by decide)⟩

/-! ## Theorems: BCD round trip -/

theorem bcd_nat_roundtrip :
    (∀ n : Nat, n < 60 → fromBCD (u8 ((n % 10) ||| ((n / 10) <<< 4))) 0x07 = (n : Int)) ∧
    (∀ n : Nat, n < 32 → fromBCD (u8 ((n % 10) ||| ((n / 10) <<< 4))) 0x03 = (n : Int)) ∧
    (∀ n : Nat, n < 13 → fromBCD (u8 ((n % 10) ||| ((n / 10) <<< 4))) 0x01 = (n : Int)) ∧
    (∀ n : Nat, n < 100 → fromBCD (u8 ((n % 10) ||| ((n / 10) <<< 4))) 0x0F = (n : Int)) ∧
    (∀ n : Nat, n < 7 → ((u8 n &&& 0x07 : Nat) : Int) = (n : Int)) := by
  refine ⟨by decide, by decide, by decide, by decide, by decide⟩

theorem fromBCD_toBCD (v : Int) (mask bound : Nat) (h0 : 0 ≤ v) (h1 : v < bound)
    (hr : ∀ n : Nat, n < bound →
      fromBCD (u8 ((n % 10) ||| ((n / 10) <<< 4))) mask = (n : Int)) :
    fromBCD (toBCD v) mask = v := by
  unfold toBCD
  rw [hr v.toNat (by omega)]
  omega

/-- C29. For every time accepted by `isValidTime` with weekday 0..6,
`setCurrentTime` writes seven register bytes, and `getCurrentTime`, reading
these seven bytes back, decodes the same second, minute, hour, day, weekday,
month and year.  When `isValidTime` is false `setCurrentTime` writes nothing. -/
theorem rtc_bcd_roundtrip (t : WatchTime) (fallback : WatchTime)
    (hv : isValidTime t = true) (hw : 0 ≤ t.weekday ∧ t.weekday ≤ 6) :
    (∃ bytes, setCurrentTime t = some bytes ∧ bytes.length = 7 ∧
      getCurrentTime (rtcReadOf bytes fallback) = t) ∧
    (∀ u : WatchTime, isValidTime u = false → setCurrentTime u = none) := by
  constructor
  · obtain ⟨r60, r32, r13, r100, r7⟩ := bcd_nat_roundtrip
    unfold isValidTime at hv
    simp only [decide_eq_true_eq] at hv
    obtain ⟨a1, a2, a3, a4, a5, a6, a7, a8, a9, a10, a11, a12⟩ := hv
    have hset : setCurrentTime t =
        some [toBCD t.second, toBCD t.minute, toBCD t.hour, toBCD t.day,
              intToU8 t.weekday, toBCD t.month, toBCD (t.year - 2000)] := by
      unfold setCurrentTime isValidTime
      simp [a1, a2, a3, a4, a5, a6, a7, a8, a9, a10, a11, a12]
    refine ⟨_, hset, rfl, ?_⟩
    have e1 := fromBCD_toBCD t.second 0x07 60 a5 (by omega) r60
    have e2 := fromBCD_toBCD t.minute 0x07 60 a3 (by omega) r60
    have e3 := fromBCD_toBCD t.hour 0x03 32 a1 (by omega) r32
    have e4 := fromBCD_toBCD t.day 0x03 32 (by omega) (by omega) r32
    have e5 := fromBCD_toBCD t.month 0x01 13 (by omega) (by omega) r13
    have e6 := fromBCD_toBCD (t.year - 2000) 0x0F 100 (by omega) (by omega) r100
    have e7 : ((u8 (intToU8 t.weekday) &&& 0x07 : Nat) : Int) = t.weekday := by
      have hu : intToU8 t.weekday = t.weekday.toNat := by
        unfold intToU8
        congr 1
        omega
      rw [hu, r7 t.weekday.toNat (by omega)]
      omega
    cases t with
    | mk hour minute second day month year weekday =>
      simp only [getCurrentTime, rtcReadOf, List.getD_cons_zero, List.getD_cons_succ,
        ge_iff_le, le_refl, ↓reduceIte, WatchTime.mk.injEq] at e1 e2 e3 e4 e5 e6 e7 ⊢
      refine ⟨e3, e2, e1, e4, e5, ?_, e7⟩
      rw [e6]
      omega
  · intro u hu
    unfold setCurrentTime
    simp [hu]

/-- Witness of C29: 23:59:58 on Friday 31 December 2099 is written as the
bytes 0x58, 0x59, 0x23, 0x31, 5, 0x12, 0x99 and read back unchanged. -/
theorem rtc_bcd_roundtrip_witness :
    isValidTime lastEvening = true ∧
    setCurrentTime lastEvening = some [0x58, 0x59, 0x23, 0x31, 5, 0x12, 0x99] ∧
    ∃ bytes, setCurrentTime lastEvening = some bytes ∧ bytes.length = 7 ∧
      getCurrentTime (rtcReadOf bytes { lastEvening with year := 2000 }) = lastEvening :=
  ⟨by decide, by decide,
   (rtc_bcd_roundtrip lastEvening { lastEvening with year := 2000 }
     (by decide) (by decide)).1⟩

/-! ## Theorems: timer −10 s button -/

theorem timerPreset_off (s : StopwatchAppState) (g : TouchGesture)
    (h : ¬ (g.y ≥ 380 ∧ g.y ≤ 410)) : timerPreset s g = s := by
  unfold timerPreset
  rw [if_neg h]

theorem timerControl_off (s : StopwatchAppState) (g : TouchGesture) (now : Nat)
    (h : ¬ (g.y ≥ 300 ∧ g.y ≤ 350)) : timerControl s g now = (s, none) := by
  unfold timerControl
  rw [if_neg h]

/-- The total after the "Time adjustment buttons" block for a tap on −10s. -/
theorem timerAdjust_minus10 (s : StopwatchAppState) (g : TouchGesture) (hg : onMinus10 g) :
    (timerAdjust s g).timer_total_seconds =
      if s.timer_seconds - 10 < 0 then
        (if s.timer_minutes > 0 then s.timer_minutes - 1 else s.timer_minutes) * 60 +
          (s.timer_seconds - 10 + 60)
      else s.timer_minutes * 60 + (s.timer_seconds - 10) := by
  obtain ⟨g1, g2, g3, g4⟩ := hg
  have hx1 : ¬ (g.x ≥ 20 ∧ g.x ≤ 80) := by omega
  have hx2 : ¬ (g.x ≥ 90 ∧ g.x ≤ 150) := by omega
  unfold timerAdjust
  rw [if_pos ⟨g1, g2⟩]
  simp only [if_neg hx1, if_neg hx2, if_pos (And.intro g3 g4)]
  by_cases hs : s.timer_seconds - 10 < 0
  · simp only [if_pos hs]
  · simp only [if_neg hs]

/-- C30, the code at the failing input.  A stopped timer set to 0:05 (total 5
seconds) and a tap on the −10s button at (190, 235): `handleTimerTouch` sets
the timer to 0:55 and the total to 55 seconds, not to `max(0, 5 − 10) = 0`;
the configured duration increases by 50 seconds.  In general, for a stopped
timer with `0 ≤ minutes`, `0 ≤ seconds < 60` and a consistent total, the tap
lowers the total by 10 when `minutes > 0` or `seconds ≥ 10`, and raises it by
50 when `minutes = 0` and `seconds < 10`. -/
theorem handleTimerTouch_minus10 :
    onMinus10 (tapAt 190 235) ∧
    (stoppedTimer 0 5).timer_total_seconds = 5 ∧
    (handleTimerTouch (stoppedTimer 0 5) (tapAt 190 235) 0).1.timer_minutes = 0 ∧
    (handleTimerTouch (stoppedTimer 0 5) (tapAt 190 235) 0).1.timer_seconds = 55 ∧
    (handleTimerTouch (stoppedTimer 0 5) (tapAt 190 235) 0).1.timer_total_seconds = 55 ∧
    (handleTimerTouch (stoppedTimer 0 5) (tapAt 190 235) 0).1.timer_total_seconds ≠
      max 0 ((stoppedTimer 0 5).timer_total_seconds - 10) ∧
    (∀ (m sec : Int) (g : TouchGesture) (now : Nat), 0 ≤ m → 0 ≤ sec → sec < 60 →
      onMinus10 g →
      ((m > 0 ∨ sec ≥ 10) →
        (handleTimerTouch (stoppedTimer m sec) g now).1.timer_total_seconds =
          (stoppedTimer m sec).timer_total_seconds - 10) ∧
      ((m = 0 ∧ sec < 10) →
        (handleTimerTouch (stoppedTimer m sec) g now).1.timer_total_seconds =
          (stoppedTimer m sec).timer_total_seconds + 50)) := by
  refine ⟨by decide, by decide, by decide, by decide, by decide, by decide, ?_⟩
  intro m sec g now hm h0 h60 hg
  have hy2 : ¬ (g.y ≥ 380 ∧ g.y ≤ 410) := by
    unfold onMinus10 at hg; omega
  have hy3 : ¬ (g.y ≥ 300 ∧ g.y ≤ 350) := by
    unfold onMinus10 at hg; omega
  have key : (handleTimerTouch (stoppedTimer m sec) g now).1.timer_total_seconds =
      if sec - 10 < 0 then (if m > 0 then m - 1 else m) * 60 + (sec - 10 + 60)
      else m * 60 + (sec - 10) := by
    have hrun : (stoppedTimer m sec).timer_running = false := rfl
    unfold handleTimerTouch
    simp only [hrun, Bool.not_false, ↓reduceIte]
    rw [timerPreset_off _ g hy2, timerControl_off _ g now hy3]
    exact timerAdjust_minus10 (stoppedTimer m sec) g hg
  rw [key]
  simp only [stoppedTimer]
  constructor
  · intro h
    split_ifs <;> omega
  · intro h
    split_ifs <;> omega

end Watch
